import Mathlib

/-!
Shallow embedding of the favorite-overlap recommendation engine and the
weekly digest scheduler of the book-favoriting application
(books/views.py, books/utils.py, books/models.py), together with proofs
of the specified properties.

Conventions of the embedding:
* database rows become plain structures; the database is a record of lists;
* user, book ids and timestamps are natural numbers (timestamps in seconds,
  so that timedelta(days=7) becomes the constant sevenDays);
* a missing email address is the empty string, matching the Django user
  model where email is a non-null character field;
* Python set values become Finset Nat; iteration over a Python set or over
  an unordered queryset becomes iteration over a deduplicated list in
  database order (the source behavior is order-dependent only in ways the
  proved statements do not depend on);
* the outbound mail call is an oracle (dispatch) returning one of
  delivered / smtpFailure (suppressed by fail_silently=True) / raised
  (an exception inside the per-recipient try block).
-/

/-- A row of the auth user table: books/views.py reads id, email, is_active. -/
structure UserRec where
  id : Nat
  email : String
  isActive : Bool
  deriving DecidableEq, Repr

/-- A row of the Book table (books/models.py); only id and title are read by
the recommendation and digest code. -/
structure BookRec where
  id : Nat
  title : String
  deriving DecidableEq, Repr

/-- A row of UserFavoriteBook (books/models.py). -/
structure Fav where
  userId : Nat
  bookId : Nat
  createdAt : Nat
  explanation : String
  deriving DecidableEq, Repr

/-- A row of UserEmailPreferences (books/models.py), keyed by user id. -/
structure EmailPrefs where
  receiveRecommendationEmails : Bool
  unsubscribedAt : Option Nat
  lastRecommendationEmailSent : Option Nat
  deriving DecidableEq, Repr

/-- Field defaults of UserEmailPreferences used by get_or_create. -/
def defaultEmailPrefs : EmailPrefs :=
  { receiveRecommendationEmails := true
    unsubscribedAt := none
    lastRecommendationEmailSent := none }

/-- The database snapshot the views read and write. -/
structure DB where
  users : List UserRec
  books : List BookRec
  favs : List Fav
  prefs : List (Nat × EmailPrefs)
  deriving DecidableEq, Repr

/-- Association-list lookup, the embedding of dictionary access and of
queryset .filter(pk) / .first(). -/
def alook {α : Type} (m : List (Nat × α)) (k : Nat) : Option α :=
  (m.find? (fun p => decide (p.1 = k))).map (fun p => p.2)

/-- Association-list update of an existing key, keeping its position, the
embedding of a Python dict assignment to a present key and of saving a
fetched model instance. -/
def aset {α : Type} (m : List (Nat × α)) (k : Nat) (v : α) : List (Nat × α) :=
  m.map (fun p => if p.1 = k then (k, v) else p)

/-- UserFavoriteBook.objects.filter(user=u). -/
def favsOf (db : DB) (u : Nat) : List Fav :=
  db.favs.filter (fun f => decide (f.userId = u))

/-- set(UserFavoriteBook.objects.filter(user=u).values_list("book_id")). -/
def favSet (db : DB) (u : Nat) : Finset Nat :=
  ((favsOf db u).map (fun f => f.bookId)).toFinset

/-- Who triggered the request: an authenticated user or a session that may
carry a guest user id. -/
inductive Requester where
  | auth (uid : Nat)
  | guest (sessionUid : Option Nat)
  deriving DecidableEq, Repr

/-- books/views.py recommendation_view lines 550-567: resolve the favorite
set of the requester; a missing session key or a deleted guest user yields
the empty set. -/
def myFavoriteIds (db : DB) (req : Requester) : Finset Nat :=
  match req with
  | .auth uid => favSet db uid
  | .guest none => ∅
  | .guest (some gid) =>
      if db.users.any (fun u => decide (u.id = gid)) then favSet db gid else ∅

/-- books/views.py recommendation_view lines 582-590: the similar_users
queryset; the target id is excluded only on the authenticated branch. -/
def consideredNeighbors (db : DB) (req : Requester) : List UserRec :=
  let f := myFavoriteIds db req
  let base := db.users.filter (fun u =>
    (favsOf db u.id).any (fun fav => decide (fav.bookId ∈ f)))
  match req with
  | .auth uid => base.filter (fun u => decide (u.id ≠ uid))
  | .guest _ => base

/-- One value of the book_recommendations dict of recommendation_view. -/
structure RecEntry where
  bookId : Nat
  similarUser : Nat
  overlapCount : Nat
  overlappingTitles : List String
  deriving DecidableEq, Repr

/-- my_favorite_book_ids and their_favorite_book_ids intersected. -/
def overlapIdsOf (db : DB) (myFavs : Finset Nat) (u : Nat) : Finset Nat :=
  myFavs ∩ favSet db u

/-- len(overlapping_book_ids). -/
def overlapCountOf (db : DB) (myFavs : Finset Nat) (u : Nat) : Nat :=
  (overlapIdsOf db myFavs u).card

/-- Titles of Book.objects.filter(id__in=overlapping_book_ids). -/
def overlappingTitlesOf (db : DB) (myFavs : Finset Nat) (u : Nat) : List String :=
  (db.books.filter (fun b => decide (b.id ∈ overlapIdsOf db myFavs u))).map
    (fun b => b.title)

/-- The dict value stored for book b when neighbor u wins the slot. -/
def recEntryOf (db : DB) (myFavs : Finset Nat) (u : Nat) (b : Nat) : RecEntry :=
  { bookId := b
    similarUser := u
    overlapCount := overlapCountOf db myFavs u
    overlappingTitles := overlappingTitlesOf db myFavs u }

/-- recommendation_view lines 611-620: the body of the inner loop over the
books neighbor u loves; the slot for b is written when b is absent or when
u has strictly more overlap than the stored neighbor. -/
def updateBookRec (db : DB) (myFavs : Finset Nat) (u : Nat)
    (m : List (Nat × RecEntry)) (b : Nat) : List (Nat × RecEntry) :=
  if b ∈ myFavs then m
  else
    match alook m b with
    | none => m ++ [(b, recEntryOf db myFavs u b)]
    | some e =>
        if e.overlapCount < overlapCountOf db myFavs u then
          aset m b (recEntryOf db myFavs u b)
        else m

/-- Iteration order over the Python set their_favorite_book_ids: the
neighbor favorite book ids in database order, first occurrences kept. -/
def theirFavIdsList (db : DB) (u : Nat) : List Nat :=
  ((favsOf db u).map (fun f => f.bookId)).dedup

/-- recommendation_view lines 596-620: process one similar user. -/
def addNeighborRecs (db : DB) (myFavs : Finset Nat)
    (m : List (Nat × RecEntry)) (u : UserRec) : List (Nat × RecEntry) :=
  (theirFavIdsList db u.id).foldl (updateBookRec db myFavs u.id) m

/-- The finished book_recommendations dict. -/
def bookRecommendationsMap (db : DB) (myFavs : Finset Nat)
    (neighbors : List UserRec) : List (Nat × RecEntry) :=
  neighbors.foldl (addNeighborRecs db myFavs) []

/-- recommendation_view lines 622-634: recommended_data, the dict values
sorted by overlap_count descending (stable). -/
def recommendedData (db : DB) (myFavs : Finset Nat)
    (neighbors : List UserRec) : List RecEntry :=
  ((bookRecommendationsMap db myFavs neighbors).map (fun p => p.2)).mergeSort
    (fun a b => decide (b.overlapCount ≤ a.overlapCount))

/-- One recommended book inside a group, with the favoriting neighbor
explanation text. -/
structure RecBook where
  bookId : Nat
  explanation : String
  deriving DecidableEq, Repr

/-- One entry of grouped_recommendations. -/
structure RecommendationGroup where
  similarUser : Nat
  overlapCount : Nat
  overlappingTitles : List String
  recommendedBooks : List RecBook
  deriving DecidableEq, Repr

/-- UserFavoriteBook.objects.filter(user=u, book=b).first(), explanation or
the empty string. -/
def explanationFor (db : DB) (u : Nat) (b : Nat) : String :=
  match db.favs.find? (fun f => decide (f.userId = u) && decide (f.bookId = b)) with
  | some f => f.explanation
  | none => ""

/-- recommendation_view lines 637-657: fold one recommended_data entry into
the grouped_recommendations dict. -/
def addRecToGroups (db : DB) (groups : List (Nat × RecommendationGroup))
    (rec : RecEntry) : List (Nat × RecommendationGroup) :=
  let rb : RecBook :=
    { bookId := rec.bookId
      explanation := explanationFor db rec.similarUser rec.bookId }
  match alook groups rec.similarUser with
  | none =>
      groups ++ [(rec.similarUser,
        { similarUser := rec.similarUser
          overlapCount := rec.overlapCount
          overlappingTitles := rec.overlappingTitles
          recommendedBooks := [rb] })]
  | some g =>
      aset groups rec.similarUser
        { g with recommendedBooks := g.recommendedBooks ++ [rb] }

/-- recommendation_view lines 659-661: grouped list, sorted by overlap
descending (stable). -/
def groupedRecList (db : DB) (recs : List RecEntry) : List RecommendationGroup :=
  ((recs.foldl (addRecToGroups db) []).map (fun p => p.2)).mergeSort
    (fun a b => decide (b.overlapCount ≤ a.overlapCount))

/-- The rendering context recommendation_view passes to the template; the
empty-favorites branch carries a diagnostic message and no
show_no_new_books_message key, the main branch the converse. -/
structure RecViewResult where
  groupedRecommendations : List RecommendationGroup
  totalFavorites : Nat
  similarUsersCount : Nat
  recommendationsCount : Nat
  message : Option String
  showAccountPrompt : Bool
  showNoNewBooksMessage : Option Bool
  deriving DecidableEq, Repr

/-- The diagnostic message of the empty-favorites branch. -/
def noFavoritesMessage : String :=
  "You need to add at least one book you love to get recommendations!"

def isAuthenticated (req : Requester) : Bool :=
  match req with
  | .auth _ => true
  | .guest _ => false

/-- books/views.py lines 549-683: recommendation_view. -/
def recommendationView (db : DB) (req : Requester) : RecViewResult :=
  let myFavs := myFavoriteIds db req
  if myFavs = ∅ then
    { groupedRecommendations := []
      totalFavorites := 0
      similarUsersCount := 0
      recommendationsCount := 0
      message := some noFavoritesMessage
      showAccountPrompt := false
      showNoNewBooksMessage := none }
  else
    let neighbors := consideredNeighbors db req
    let recs := recommendedData db myFavs neighbors
    let groups := groupedRecList db recs
    let totalFavorites := myFavs.card
    { groupedRecommendations := groups
      totalFavorites := totalFavorites
      similarUsersCount := neighbors.length
      recommendationsCount := recs.length
      message := none
      showAccountPrompt := !isAuthenticated req && decide (0 < totalFavorites)
      showNoNewBooksMessage :=
        some (decide (0 < neighbors.length) && decide (recs.length = 0)) }

/-- books/utils.py lines 28-98: get_book_recommendations, the ungrouped
variant; it always excludes the current user from similar_users. -/
def get_book_recommendations (db : DB) (currentUser : Nat) : List RecEntry :=
  let myFavoriteIdsU := favSet db currentUser
  if myFavoriteIdsU = ∅ then []
  else
    let similarUsers := db.users.filter (fun u =>
      ((favsOf db u.id).any (fun f => decide (f.bookId ∈ myFavoriteIdsU))) &&
      decide (u.id ≠ currentUser))
    recommendedData db myFavoriteIdsU similarUsers

/-- Outcome of the per-recipient email block of
_send_new_recommendation_emails: the message was handed to the transport
(delivered), the transport failed but fail_silently=True suppressed the
error (smtpFailure), or an exception escaped some call inside the try
block before send_mail completed (raised). -/
inductive DispatchOutcome where
  | delivered
  | smtpFailure
  | raised
  deriving DecidableEq, Repr

/-- timedelta(days=7) in seconds. -/
def sevenDays : Nat := 7 * 24 * 60 * 60

/-- The data rendered into a digest email (books list capped at ten,
total and additional counts). -/
structure DigestPayload where
  booksForEmail : List BookRec
  totalRecommendationsCount : Nat
  additionalCount : Nat
  deriving DecidableEq, Repr

/-- State threaded through the recipient loop of
_send_new_recommendation_emails: the email-preference table, the counter,
and the trace of recipients whose email block completed. -/
structure DigestState where
  prefs : List (Nat × EmailPrefs)
  emailsSent : Nat
  sentTo : List Nat
  deriving DecidableEq, Repr

/-- UserEmailPreferences.objects.get_or_create(user=u). -/
def getOrCreatePrefs (m : List (Nat × EmailPrefs)) (u : Nat) :
    EmailPrefs × List (Nat × EmailPrefs) :=
  match alook m u with
  | some p => (p, m)
  | none => (defaultEmailPrefs, m ++ [(u, defaultEmailPrefs)])

/-- _send_new_recommendation_emails lines 116-123: users sharing a favorite
with the recipient through a favorite row created in the last seven days. -/
def recentSimilarUsers (db : DB) (userA : Nat) (now : Nat) : List UserRec :=
  let fa := favSet db userA
  let sevenDaysAgo := now - sevenDays
  db.users.filter (fun u =>
    ((favsOf db u.id).any (fun f =>
      decide (f.bookId ∈ fa) && decide (sevenDaysAgo ≤ f.createdAt))) &&
    decide (u.id ≠ userA))

/-- _send_new_recommendation_emails lines 127-137: the union over recent
similar users of their recently created favorite books minus the
recipient favorites. -/
def allNewBooksFor (db : DB) (userA : Nat) (now : Nat) : Finset Nat :=
  let fa := favSet db userA
  let sevenDaysAgo := now - sevenDays
  (recentSimilarUsers db userA now).foldl (fun acc u =>
    acc ∪ ((((favsOf db u.id).filter
      (fun f => decide (sevenDaysAgo ≤ f.createdAt))).map
        (fun f => f.bookId)).toFinset \ fa)) ∅

/-- _send_new_recommendation_emails lines 147-153: all users sharing a
favorite with the recipient, no email or activity filter. -/
def allSimilarUsersFor (db : DB) (userA : Nat) : List UserRec :=
  let fa := favSet db userA
  db.users.filter (fun u =>
    ((favsOf db u.id).any (fun f => decide (f.bookId ∈ fa))) &&
    decide (u.id ≠ userA))

/-- _send_new_recommendation_emails lines 155-165: size of the full
candidate set, not limited in time. -/
def totalRecommendationsCountFor (db : DB) (userA : Nat) : Nat :=
  let fa := favSet db userA
  ((allSimilarUsersFor db userA).foldl
    (fun acc u => acc ∪ (favSet db u.id \ fa)) ∅).card

/-- Book.objects.filter(id__in=all_new_books). -/
def newBooksFor (db : DB) (userA : Nat) (now : Nat) : List BookRec :=
  db.books.filter (fun b => decide (b.id ∈ allNewBooksFor db userA now))

/-- _send_new_recommendation_emails lines 167-169: the email content data. -/
def digestPayloadFor (db : DB) (userA : Nat) (now : Nat) : DigestPayload :=
  { booksForEmail := (newBooksFor db userA now).take 10
    totalRecommendationsCount := totalRecommendationsCountFor db userA
    additionalCount := totalRecommendationsCountFor db userA - 10 }

/-- _send_new_recommendation_emails lines 99-104: the throttle test; a
recipient with no recorded previous send is never throttled. -/
def throttledNow (p : EmailPrefs) (now : Nat) : Bool :=
  match p.lastRecommendationEmailSent with
  | some t => decide (now - t < sevenDays)
  | none => false

/-- _send_new_recommendation_emails lines 93-223: the body of the loop over
similar users, for one recipient. The timestamp write and the counter
increment happen exactly when the email block does not raise; a transport
failure under fail_silently=True does not raise. -/
def processRecipient (db : DB) (now : Nat)
    (dispatch : Nat → DigestPayload → DispatchOutcome)
    (st : DigestState) (userA : UserRec) : DigestState :=
  let ep := (getOrCreatePrefs st.prefs userA.id).1
  let m1 := (getOrCreatePrefs st.prefs userA.id).2
  if !ep.receiveRecommendationEmails then { st with prefs := m1 }
  else if throttledNow ep now then { st with prefs := m1 }
  else if allNewBooksFor db userA.id now = ∅ then { st with prefs := m1 }
  else if newBooksFor db userA.id now = [] then { st with prefs := m1 }
  else
    match dispatch userA.id (digestPayloadFor db userA.id now) with
    | .raised => { st with prefs := m1 }
    | _ =>
        { prefs := aset m1 userA.id
            { ep with lastRecommendationEmailSent := some now }
          emailsSent := st.emailsSent + 1
          sentTo := st.sentTo ++ [userA.id] }

/-- _send_new_recommendation_emails lines 59-68: candidate recipients share
a favorite with the actor, have a non-empty email, are active, and are not
the actor. -/
def digestRecipients (db : DB) (userB : Nat) : List UserRec :=
  let fb := favSet db userB
  db.users.filter (fun u =>
    ((favsOf db u.id).any (fun f => decide (f.bookId ∈ fb))) &&
    decide (u.email ≠ "") && u.isActive && decide (u.id ≠ userB))

/-- _send_new_recommendation_emails lines 36-47: resolve the actor from the
request; a missing session key or a deleted guest user aborts the pass. -/
def resolveActor (db : DB) (req : Requester) : Option Nat :=
  match req with
  | .auth uid => some uid
  | .guest none => none
  | .guest (some gid) =>
      if db.users.any (fun u => decide (u.id = gid)) then some gid else none

/-- books/views.py lines 31-225: _send_new_recommendation_emails, the
digest pass, parameterized by the mail transport oracle. -/
def runDigestPass (db : DB) (req : Requester) (now : Nat)
    (dispatch : Nat → DigestPayload → DispatchOutcome) : DigestState :=
  match resolveActor db req with
  | none => { prefs := db.prefs, emailsSent := 0, sentTo := [] }
  | some userB =>
      if favSet db userB = ∅ then { prefs := db.prefs, emailsSent := 0, sentTo := [] }
      else
        (digestRecipients db userB).foldl (processRecipient db now dispatch)
          { prefs := db.prefs, emailsSent := 0, sentTo := [] }

/-- _merge_guest_favorites lines 241-246: get_or_create the favorite of the
receiving user for one guest favorite, copying the explanation. -/
def copyGuestFav (intoUser : Nat) (now : Nat) (favs : List Fav) (gf : Fav) :
    List Fav :=
  if favs.any (fun f => decide (f.userId = intoUser) && decide (f.bookId = gf.bookId))
  then favs
  else favs ++ [{ userId := intoUser, bookId := gf.bookId, createdAt := now,
                  explanation := gf.explanation }]

/-- books/views.py lines 227-249: _merge_guest_favorites; copies the guest
favorites into the receiving user, deletes the guest favorites, then
deletes the guest user (which cascades to its email preferences). -/
def merge_guest_favorites (db : DB) (guestId : Option Nat) (intoUser : Nat)
    (now : Nat) : DB :=
  match guestId with
  | none => db
  | some gid =>
      if gid = intoUser then db
      else if !(db.users.any (fun u => decide (u.id = gid))) then db
      else
        let copied := (db.favs.filter (fun f => decide (f.userId = gid))).foldl
          (copyGuestFav intoUser now) db.favs
        { users := db.users.filter (fun u => decide (u.id ≠ gid))
          books := db.books
          favs := copied.filter (fun f => decide (f.userId ≠ gid))
          prefs := db.prefs.filter (fun p => decide (p.1 ≠ gid)) }

/-- books/views.py lines 1083-1087: resolve the target of the unsubscribe
link; uid is the decoded uidb64, none when decoding raised. -/
def unsubResolveUser (db : DB) (uid : Option Nat) : Option UserRec :=
  match uid with
  | none => none
  | some i => db.users.find? (fun u => decide (u.id = i))

/-- books/views.py lines 1081-1158: unsubscribe_recommendations_view;
checkToken abstracts default_token_generator.check_token. Returns the new
database and whether the success page was rendered. -/
def unsubscribe_recommendations_view (db : DB) (uid : Option Nat)
    (checkToken : Nat → Bool) (now : Nat) : DB × Bool :=
  match unsubResolveUser db uid with
  | some u =>
      if checkToken u.id then
        let ep := (getOrCreatePrefs db.prefs u.id).1
        let m1 := (getOrCreatePrefs db.prefs u.id).2
        let ep2 := { ep with receiveRecommendationEmails := false,
                             unsubscribedAt := some now }
        ({ db with prefs := aset m1 u.id ep2 }, true)
      else (db, false)
  | none => (db, false)

/-! ## Association-list infrastructure lemmas -/

theorem alook_nil {α : Type} (k : Nat) : alook ([] : List (Nat × α)) k = none := rfl

theorem alook_cons {α : Type} (j : Nat) (v : α) (m : List (Nat × α)) (k : Nat) :
    alook ((j, v) :: m) k = if j = k then some v else alook m k := by
  by_cases h : j = k <;> simp [alook, List.find?_cons, h]

theorem alook_append {α : Type} (m1 m2 : List (Nat × α)) (k : Nat) :
    alook (m1 ++ m2) k = (alook m1 k).or (alook m2 k) := by
  simp [alook, List.find?_append]
  cases List.find? (fun p => decide (p.1 = k)) m1 <;> simp

theorem alook_aset_self {α : Type} (m : List (Nat × α)) (k : Nat) (v : α) :
    alook (aset m k v) k = (alook m k).map (fun _ => v) := by
  induction m with
  | nil => rfl
  | cons p m ih =>
      obtain ⟨j, w⟩ := p
      by_cases h : j = k
      · subst h
        simp [aset, alook_cons]
      · simp only [aset] at ih ⊢
        simp [List.map_cons, h, alook_cons, ih]

theorem alook_aset_ne {α : Type} (m : List (Nat × α)) (k k' : Nat) (v : α)
    (h : k' ≠ k) : alook (aset m k v) k' = alook m k' := by
  induction m with
  | nil => rfl
  | cons p m ih =>
      obtain ⟨j, w⟩ := p
      by_cases hj : j = k
      · subst hj
        simp only [aset, List.map_cons, if_pos rfl]
        rw [alook_cons, alook_cons, if_neg (fun hk => h hk.symm), if_neg (fun hk => h hk.symm)]
        exact ih
      · simp only [aset, List.map_cons, if_neg hj]
        rw [alook_cons, alook_cons]
        by_cases hjk : j = k'
        · simp [hjk]
        · simp only [if_neg hjk]
          exact ih

theorem alook_eq_none_iff {α : Type} (m : List (Nat × α)) (k : Nat) :
    alook m k = none ↔ ∀ p ∈ m, p.1 ≠ k := by
  simp [alook, Option.map_eq_none', List.find?_eq_none]

theorem mem_of_alook_eq_some {α : Type} {m : List (Nat × α)} {k : Nat} {v : α}
    (h : alook m k = some v) : (k, v) ∈ m := by
  simp only [alook, Option.map_eq_some'] at h
  obtain ⟨p, hp, hv⟩ := h
  have hmem := List.mem_of_find?_eq_some hp
  have hkey := List.find?_some hp
  simp only [decide_eq_true_eq] at hkey
  have : p = (k, v) := by
    obtain ⟨a, b⟩ := p
    simp only at hkey hv
    subst hkey hv
    rfl
  rwa [this] at hmem

theorem alook_of_mem_of_nodupkeys {α : Type} {m : List (Nat × α)} {k : Nat} {v : α}
    (hn : (m.map (fun p => p.1)).Nodup) (h : (k, v) ∈ m) : alook m k = some v := by
  induction m with
  | nil => simp at h
  | cons p m ih =>
      obtain ⟨j, w⟩ := p
      simp only [List.map_cons, List.nodup_cons] at hn
      rcases List.mem_cons.mp h with h1 | h1
      · rw [← h1, alook_cons, if_pos rfl]
      · have hjk : j ≠ k := by
          intro hjk
          subst hjk
          exact hn.1 (List.mem_map.mpr ⟨(j, v), h1, rfl⟩)
        rw [alook_cons, if_neg hjk]
        exact ih hn.2 h1

theorem aset_keys {α : Type} (m : List (Nat × α)) (k : Nat) (v : α) :
    (aset m k v).map (fun p => p.1) = m.map (fun p => p.1) := by
  induction m with
  | nil => rfl
  | cons p m ih =>
      obtain ⟨j, w⟩ := p
      by_cases h : j = k <;> simp [aset, h] at ih ⊢ <;> exact ih

theorem map_noop {α : Type} (f : α → α) (l : List α) (h : ∀ a ∈ l, f a = a) :
    l.map f = l := by
  induction l with
  | nil => rfl
  | cons a l ih =>
      simp only [List.map_cons, h a (List.mem_cons_self a l)]
      rw [ih (fun b hb => h b (List.mem_cons_of_mem a hb))]

theorem aset_of_split {α : Type} (l1 l2 : List (Nat × α)) (k : Nat) (w v : α)
    (h1 : ∀ p ∈ l1, p.1 ≠ k) (h2 : ∀ p ∈ l2, p.1 ≠ k) :
    aset (l1 ++ (k, w) :: l2) k v = l1 ++ (k, v) :: l2 := by
  simp only [aset, List.map_append, List.map_cons, if_pos rfl]
  rw [map_noop _ l1 (fun p hp => if_neg (h1 p hp)),
      map_noop _ l2 (fun p hp => if_neg (h2 p hp))]
  simp

theorem alook_split {α : Type} {m : List (Nat × α)} {k : Nat} {v : α}
    (hn : (m.map (fun p => p.1)).Nodup) (h : alook m k = some v) :
    ∃ l1 l2, m = l1 ++ (k, v) :: l2 ∧ (∀ p ∈ l1, p.1 ≠ k) ∧ (∀ p ∈ l2, p.1 ≠ k) := by
  obtain ⟨l1, l2, hm⟩ := List.append_of_mem (mem_of_alook_eq_some h)
  refine ⟨l1, l2, hm, ?_, ?_⟩
  · intro p hp hpk
    rw [hm, List.map_append, List.map_cons, List.nodup_append] at hn
    exact hn.2.2 (List.mem_map.mpr ⟨p, hp, rfl⟩) (by simp [hpk])
  · intro p hp hpk
    rw [hm, List.map_append, List.map_cons, List.nodup_append, List.nodup_cons] at hn
    exact hn.2.1.1 (List.mem_map.mpr ⟨p, hp, hpk⟩)

/-- Fold invariant preservation, the workhorse for the loop proofs. -/
theorem foldl_preserve {σ α : Type} (step : σ → α → σ) (P : σ → Prop)
    (l : List α) (st : σ) (h0 : P st)
    (hstep : ∀ s a, a ∈ l → P s → P (step s a)) :
    P (l.foldl step st) := by
  induction l generalizing st with
  | nil => exact h0
  | cons a l ih =>
      exact ih (step st a) (hstep st a (List.mem_cons_self a l) h0)
        (fun s b hb => hstep s b (List.mem_cons_of_mem a hb))

/-! ## Digest scheduler lemmas -/

theorem getOrCreate_fst (m : List (Nat × EmailPrefs)) (u : Nat) :
    (getOrCreatePrefs m u).1 = (alook m u).getD defaultEmailPrefs := by
  unfold getOrCreatePrefs
  cases alook m u <;> rfl

theorem getOrCreate_of_some {m : List (Nat × EmailPrefs)} {u : Nat} {p : EmailPrefs}
    (h : alook m u = some p) : getOrCreatePrefs m u = (p, m) := by
  unfold getOrCreatePrefs
  rw [h]

theorem getOrCreate_snd_ne (m : List (Nat × EmailPrefs)) (u k : Nat) (hk : k ≠ u) :
    alook ((getOrCreatePrefs m u).2) k = alook m k := by
  unfold getOrCreatePrefs
  cases h : alook m u with
  | some p => rfl
  | none =>
      have hne : u ≠ k := fun he => hk he.symm
      simp only [alook_append, alook_cons, alook_nil, if_neg hne]
      cases alook m k <;> rfl

theorem getOrCreate_snd_self (m : List (Nat × EmailPrefs)) (u : Nat) :
    alook ((getOrCreatePrefs m u).2) u = some ((alook m u).getD defaultEmailPrefs) := by
  unfold getOrCreatePrefs
  cases h : alook m u with
  | some p => simpa using h
  | none => simp [alook_append, alook_cons, h]

/-- The conditions under which _send_new_recommendation_emails reaches the
try block for a recipient whose fetched preferences are p. -/
def wouldAttempt (db : DB) (now : Nat) (p : EmailPrefs) (uid : Nat) : Bool :=
  p.receiveRecommendationEmails && !(throttledNow p now) &&
  !(decide (allNewBooksFor db uid now = ∅)) &&
  !(decide (newBooksFor db uid now = []))

/-- Normal form of the per-recipient loop body: exactly when the attempt
conditions hold and the email block does not raise, the timestamp is set,
the counter is bumped and the trace records the recipient; otherwise the
state is unchanged apart from lazy creation of the preference row. -/
theorem processRecipient_eq (db : DB) (now : Nat)
    (d : Nat → DigestPayload → DispatchOutcome) (st : DigestState) (u : UserRec) :
    processRecipient db now d st u =
      if wouldAttempt db now (getOrCreatePrefs st.prefs u.id).1 u.id
         && !(decide (d u.id (digestPayloadFor db u.id now) = DispatchOutcome.raised))
      then { prefs := aset (getOrCreatePrefs st.prefs u.id).2 u.id
               { (getOrCreatePrefs st.prefs u.id).1 with
                 lastRecommendationEmailSent := some now }
             emailsSent := st.emailsSent + 1
             sentTo := st.sentTo ++ [u.id] }
      else { st with prefs := (getOrCreatePrefs st.prefs u.id).2 } := by
  unfold processRecipient wouldAttempt
  by_cases h1 : (getOrCreatePrefs st.prefs u.id).1.receiveRecommendationEmails
  · by_cases h2 : throttledNow (getOrCreatePrefs st.prefs u.id).1 now
    · simp [h1, h2]
    · by_cases h3 : allNewBooksFor db u.id now = ∅
      · simp [h1, h2, h3]
      · by_cases h4 : newBooksFor db u.id now = []
        · simp [h1, h2, h3, h4]
        · cases hd : d u.id (digestPayloadFor db u.id now) <;>
            simp [h1, h2, h3, h4, hd]
  · simp [h1]

theorem processRecipient_prefs_frame (db : DB) (now : Nat)
    (d : Nat → DigestPayload → DispatchOutcome) (st : DigestState) (u : UserRec)
    (k : Nat) (hk : k ≠ u.id) :
    alook (processRecipient db now d st u).prefs k = alook st.prefs k := by
  rw [processRecipient_eq]
  by_cases h : wouldAttempt db now (getOrCreatePrefs st.prefs u.id).1 u.id
      && !(decide (d u.id (digestPayloadFor db u.id now) = DispatchOutcome.raised))
  · rw [if_pos h]
    simp only
    rw [alook_aset_ne _ _ _ _ hk, getOrCreate_snd_ne _ _ _ hk]
  · rw [if_neg h]
    simp only
    rw [getOrCreate_snd_ne _ _ _ hk]

theorem processRecipient_sentTo_eq (db : DB) (now : Nat)
    (d : Nat → DigestPayload → DispatchOutcome) (st : DigestState) (u : UserRec) :
    (processRecipient db now d st u).sentTo = st.sentTo ∨
    (processRecipient db now d st u).sentTo = st.sentTo ++ [u.id] := by
  rw [processRecipient_eq]
  by_cases h : wouldAttempt db now (getOrCreatePrefs st.prefs u.id).1 u.id
      && !(decide (d u.id (digestPayloadFor db u.id now) = DispatchOutcome.raised))
  · rw [if_pos h]; right; rfl
  · rw [if_neg h]; left; rfl

/-- Membership characterization of the recipient queryset. -/
theorem mem_digestRecipients {db : DB} {userB : Nat} {u : UserRec} :
    u ∈ digestRecipients db userB ↔
      u ∈ db.users ∧ (∃ f ∈ favsOf db u.id, f.bookId ∈ favSet db userB) ∧
      u.email ≠ "" ∧ u.isActive = true ∧ u.id ≠ userB := by
  unfold digestRecipients
  simp only [List.mem_filter, Bool.and_eq_true, decide_eq_true_eq, List.any_eq_true]
  tauto

/-- A recipient shares a favorite with the actor, so the actor favorite set
was non-empty. -/
theorem actor_favs_nonempty_of_recipient {db : DB} {userB : Nat} {u : UserRec}
    (h : u ∈ digestRecipients db userB) : ¬(favSet db userB = ∅) := by
  obtain ⟨-, ⟨f, -, hf⟩, -⟩ := mem_digestRecipients.mp h
  intro he
  rw [he] at hf
  exact absurd hf (Finset.not_mem_empty _)

/-- When the actor resolves and has favorites, the pass is a fold over the
recipient list. -/
theorem runDigestPass_eq_foldl {db : DB} {req : Requester} {now : Nat}
    {d : Nat → DigestPayload → DispatchOutcome} {userB : Nat}
    (hb : resolveActor db req = some userB) (hf : ¬(favSet db userB = ∅)) :
    runDigestPass db req now d =
      (digestRecipients db userB).foldl (processRecipient db now d)
        { prefs := db.prefs, emailsSent := 0, sentTo := [] } := by
  unfold runDigestPass
  rw [hb]
  simp [hf]

/-- Either the pass is a fold over some resolved actor recipients, or it is
the untouched initial state. -/
theorem runDigestPass_cases (db : DB) (req : Requester) (now : Nat)
    (d : Nat → DigestPayload → DispatchOutcome) :
    (∃ userB, resolveActor db req = some userB ∧ ¬(favSet db userB = ∅) ∧
      runDigestPass db req now d =
        (digestRecipients db userB).foldl (processRecipient db now d)
          { prefs := db.prefs, emailsSent := 0, sentTo := [] }) ∨
    runDigestPass db req now d = { prefs := db.prefs, emailsSent := 0, sentTo := [] } := by
  cases hb : resolveActor db req with
  | none => right; unfold runDigestPass; rw [hb]
  | some userB =>
      by_cases hf : favSet db userB = ∅
      · right; unfold runDigestPass; rw [hb]; simp [hf]
      · left; exact ⟨userB, rfl, hf, runDigestPass_eq_foldl hb hf⟩

/-- A throttled recipient (a recorded previous send less than seven days
before now) is skipped: never in the send trace, preference row unchanged. -/
theorem digest_throttled_skip (db : DB) (req : Requester) (now : Nat)
    (d : Nat → DigestPayload → DispatchOutcome) (r : Nat) (p : EmailPrefs) (t : Nat)
    (hp : alook db.prefs r = some p)
    (ht : p.lastRecommendationEmailSent = some t)
    (hlt : now - t < sevenDays) :
    r ∉ (runDigestPass db req now d).sentTo ∧
    alook (runDigestPass db req now d).prefs r = some p := by
  rcases runDigestPass_cases db req now d with ⟨userB, hb, hf, heq⟩ | heq
  · rw [heq]
    have key := foldl_preserve (processRecipient db now d)
      (fun st => alook st.prefs r = some p ∧ r ∉ st.sentTo)
      (digestRecipients db userB) ⟨db.prefs, 0, []⟩ ⟨hp, by simp⟩ ?_
    · exact ⟨key.2, key.1⟩
    · intro s u hu hP
      by_cases hid : r = u.id
      · subst hid
        have hep : (getOrCreatePrefs s.prefs u.id).1 = p := by
          rw [getOrCreate_fst, hP.1]
          rfl
        have hm1 : (getOrCreatePrefs s.prefs u.id).2 = s.prefs :=
          congrArg Prod.snd (getOrCreate_of_some hP.1)
        have hthr : throttledNow p now = true := by
          unfold throttledNow
          rw [ht]
          simpa using hlt
        have hwa : wouldAttempt db now (getOrCreatePrefs s.prefs u.id).1 u.id = false := by
          rw [hep]
          unfold wouldAttempt
          rw [hthr]
          simp
        have hstep : processRecipient db now d s u = { s with prefs := (getOrCreatePrefs s.prefs u.id).2 } := by
          rw [processRecipient_eq, if_neg]
          rw [hwa]
          simp
        rw [hstep]
        simp only
        rw [hm1]
        exact hP
      · refine ⟨?_, ?_⟩
        · rw [processRecipient_prefs_frame db now d s u r hid]
          exact hP.1
        · rcases processRecipient_sentTo_eq db now d s u with hs | hs <;> rw [hs]
          · exact hP.2
          · intro hmem
            rcases List.mem_append.mp hmem with hm | hm
            · exact hP.2 hm
            · exact hid (by simpa using hm)
  · rw [heq]
    exact ⟨by simp, hp⟩

/-- Any recipient in the send trace has its preference row stamped with the
current time. -/
theorem digest_sent_timestamp (db : DB) (req : Requester) (now : Nat)
    (d : Nat → DigestPayload → DispatchOutcome) (r : Nat)
    (h : r ∈ (runDigestPass db req now d).sentTo) :
    ∃ q, alook (runDigestPass db req now d).prefs r = some q ∧
         q.lastRecommendationEmailSent = some now := by
  rcases runDigestPass_cases db req now d with ⟨userB, hb, hf, heq⟩ | heq
  · rw [heq] at h ⊢
    have key := foldl_preserve (processRecipient db now d)
      (fun st => r ∈ st.sentTo →
        ∃ q, alook st.prefs r = some q ∧ q.lastRecommendationEmailSent = some now)
      (digestRecipients db userB) ⟨db.prefs, 0, []⟩ (by simp) ?_
    · exact key h
    · intro s u hu hP
      rw [processRecipient_eq]
      by_cases hc : (wouldAttempt db now (getOrCreatePrefs s.prefs u.id).1 u.id &&
          !decide (d u.id (digestPayloadFor db u.id now) = DispatchOutcome.raised)) = true
      · rw [if_pos hc]
        intro hmem
        simp only at hmem
        by_cases hid : r = u.id
        · subst hid
          refine ⟨{ (getOrCreatePrefs s.prefs u.id).1 with
                     lastRecommendationEmailSent := some now }, ?_, rfl⟩
          simp only
          rw [alook_aset_self, getOrCreate_snd_self]
          rfl
        · rcases List.mem_append.mp hmem with hm | hm
          · obtain ⟨q, hq1, hq2⟩ := hP hm
            refine ⟨q, ?_, hq2⟩
            simp only
            rw [alook_aset_ne _ _ _ _ hid, getOrCreate_snd_ne _ _ _ hid]
            exact hq1
          · exact absurd (by simpa using hm) hid
      · rw [if_neg hc]
        intro hmem
        simp only at hmem
        obtain ⟨q, hq1, hq2⟩ := hP hmem
        refine ⟨q, ?_, hq2⟩
        by_cases hid : r = u.id
        · subst hid
          rw [getOrCreate_snd_self, hq1]
          rfl
        · rw [getOrCreate_snd_ne _ _ _ hid]
          exact hq1
  · rw [heq] at h
    simp at h

/-- With distinct user ids, a recipient of the digest pass is processed
against its initial preference row: if the attempt conditions hold and the
email block does not raise, the row is stamped and the recipient traced;
otherwise the row keeps its fetched value and the recipient is not traced. -/
theorem digest_first_attempt (db : DB) (req : Requester) (now : Nat)
    (d : Nat → DigestPayload → DispatchOutcome) (userB : Nat) (ur : UserRec)
    (hn : (db.users.map (fun u => u.id)).Nodup)
    (hb : resolveActor db req = some userB)
    (hr : ur ∈ digestRecipients db userB) :
    ((wouldAttempt db now ((alook db.prefs ur.id).getD defaultEmailPrefs) ur.id &&
        !decide (d ur.id (digestPayloadFor db ur.id now) = DispatchOutcome.raised)) = true →
      alook (runDigestPass db req now d).prefs ur.id =
        some { (alook db.prefs ur.id).getD defaultEmailPrefs with
               lastRecommendationEmailSent := some now } ∧
      ur.id ∈ (runDigestPass db req now d).sentTo) ∧
    ((wouldAttempt db now ((alook db.prefs ur.id).getD defaultEmailPrefs) ur.id &&
        !decide (d ur.id (digestPayloadFor db ur.id now) = DispatchOutcome.raised)) = false →
      alook (runDigestPass db req now d).prefs ur.id =
        some ((alook db.prefs ur.id).getD defaultEmailPrefs) ∧
      ur.id ∉ (runDigestPass db req now d).sentTo) := by
  have hf := actor_favs_nonempty_of_recipient hr
  have hrn : ((digestRecipients db userB).map (fun u => u.id)).Nodup := by
    have hsub : List.Sublist ((digestRecipients db userB).map (fun u => u.id))
        (db.users.map (fun u => u.id)) :=
      List.Sublist.map _ (List.filter_sublist _)
    exact hn.sublist hsub
  obtain ⟨l1, l2, hsplit⟩ := List.append_of_mem hr
  rw [hsplit, List.map_append, List.map_cons, List.nodup_append, List.nodup_cons] at hrn
  have h1 : ∀ x ∈ l1, x.id ≠ ur.id := by
    intro x hx hxe
    exact hrn.2.2 (List.mem_map.mpr ⟨x, hx, rfl⟩) (hxe ▸ List.mem_cons_self _ _)
  have h2 : ∀ x ∈ l2, x.id ≠ ur.id := by
    intro x hx hxe
    exact hrn.2.1.1 (hxe ▸ List.mem_map.mpr ⟨x, hx, rfl⟩)
  have hpass : runDigestPass db req now d =
      (l1 ++ ur :: l2).foldl (processRecipient db now d)
        { prefs := db.prefs, emailsSent := 0, sentTo := [] } := by
    rw [runDigestPass_eq_foldl hb hf, hsplit]
  have hst1 : alook (l1.foldl (processRecipient db now d)
        { prefs := db.prefs, emailsSent := 0, sentTo := [] }).prefs ur.id
          = alook db.prefs ur.id ∧
      ur.id ∉ (l1.foldl (processRecipient db now d)
        { prefs := db.prefs, emailsSent := 0, sentTo := [] }).sentTo := by
    apply foldl_preserve (processRecipient db now d)
      (fun s => alook s.prefs ur.id = alook db.prefs ur.id ∧ ur.id ∉ s.sentTo)
    · exact ⟨rfl, by simp⟩
    · intro s x hx hP
      refine ⟨?_, ?_⟩
      · rw [processRecipient_prefs_frame db now d s x ur.id
          (fun he => h1 x hx he.symm)]
        exact hP.1
      · rcases processRecipient_sentTo_eq db now d s x with hs | hs <;> rw [hs]
        · exact hP.2
        · intro hmem
          rcases List.mem_append.mp hmem with hm | hm
          · exact hP.2 hm
          · have hxe : ur.id = x.id := by simpa using hm
            exact h1 x hx hxe.symm
  set st1 := l1.foldl (processRecipient db now d)
    { prefs := db.prefs, emailsSent := 0, sentTo := [] } with hst1def
  have hep : (getOrCreatePrefs st1.prefs ur.id).1 =
      (alook db.prefs ur.id).getD defaultEmailPrefs := by
    rw [getOrCreate_fst, hst1.1]
  have hm1self : alook (getOrCreatePrefs st1.prefs ur.id).2 ur.id =
      some ((alook db.prefs ur.id).getD defaultEmailPrefs) := by
    rw [getOrCreate_snd_self, hst1.1]
  have hl2 : ∀ (st2 : DigestState),
      alook (l2.foldl (processRecipient db now d) st2).prefs ur.id =
        alook st2.prefs ur.id ∧
      (ur.id ∈ (l2.foldl (processRecipient db now d) st2).sentTo ↔
        ur.id ∈ st2.sentTo) := by
    intro st2
    apply foldl_preserve (processRecipient db now d)
      (fun s => alook s.prefs ur.id = alook st2.prefs ur.id ∧
        (ur.id ∈ s.sentTo ↔ ur.id ∈ st2.sentTo))
    · exact ⟨rfl, Iff.rfl⟩
    · intro s x hx hP
      refine ⟨?_, ?_⟩
      · rw [processRecipient_prefs_frame db now d s x ur.id
          (fun he => h2 x hx he.symm)]
        exact hP.1
      · rcases processRecipient_sentTo_eq db now d s x with hs | hs <;> rw [hs]
        · exact hP.2
        · rw [← hP.2]
          constructor
          · intro hmem
            rcases List.mem_append.mp hmem with hm | hm
            · exact hm
            · have hxe : ur.id = x.id := by simpa using hm
              exact absurd hxe.symm (h2 x hx)
          · intro hmem
            exact List.mem_append.mpr (Or.inl hmem)
  constructor
  · intro hc
    have hstep : processRecipient db now d st1 ur =
        { prefs := aset (getOrCreatePrefs st1.prefs ur.id).2 ur.id
            { (alook db.prefs ur.id).getD defaultEmailPrefs with
              lastRecommendationEmailSent := some now }
          emailsSent := st1.emailsSent + 1
          sentTo := st1.sentTo ++ [ur.id] } := by
      rw [processRecipient_eq, hep, if_pos hc]
    rw [hpass, List.foldl_append, List.foldl_cons, ← hst1def]
    obtain ⟨ha, hme⟩ := hl2 (processRecipient db now d st1 ur)
    refine ⟨?_, ?_⟩
    · rw [ha, hstep]
      simp only
      rw [alook_aset_self, hm1self]
      rfl
    · rw [hme, hstep]
      simp
  · intro hc
    have hstep : processRecipient db now d st1 ur =
        { st1 with prefs := (getOrCreatePrefs st1.prefs ur.id).2 } := by
      rw [processRecipient_eq, hep, if_neg]
      rw [hc]
      simp
    rw [hpass, List.foldl_append, List.foldl_cons, ← hst1def]
    obtain ⟨ha, hme⟩ := hl2 (processRecipient db now d st1 ur)
    refine ⟨?_, ?_⟩
    · rw [ha, hstep]
      simp only
      exact hm1self
    · rw [hme, hstep]
      simp only
      exact hst1.2

/-- C6: a user whose stored email preference has
receive_recommendation_emails = false, and likewise a user with no email
address or who is inactive, never appears in the send trace of any digest
pass, whatever the overlap with the actor. -/
theorem c6_unsubscribed_or_inactive_never_emailed (db : DB) (req : Requester)
    (now : Nat) (d : Nat → DigestPayload → DispatchOutcome) (r : Nat)
    (h : (∃ p, alook db.prefs r = some p ∧ p.receiveRecommendationEmails = false) ∨
         (∀ u ∈ db.users, u.id = r → u.email = "" ∨ u.isActive = false)) :
    r ∉ (runDigestPass db req now d).sentTo := by
  rcases runDigestPass_cases db req now d with ⟨userB, hb, hf, heq⟩ | heq
  · rw [heq]
    rcases h with ⟨p, hp, hrecv⟩ | hbad
    · have key := foldl_preserve (processRecipient db now d)
        (fun st => (∃ q, alook st.prefs r = some q ∧
            q.receiveRecommendationEmails = false) ∧ r ∉ st.sentTo)
        (digestRecipients db userB) ⟨db.prefs, 0, []⟩ ⟨⟨p, hp, hrecv⟩, by simp⟩ ?_
      · exact key.2
      · intro s u hu hP
        obtain ⟨⟨q, hq, hqr⟩, hns⟩ := hP
        by_cases hid : r = u.id
        · subst hid
          have hep : (getOrCreatePrefs s.prefs u.id).1 = q := by
            rw [getOrCreate_fst, hq]
            rfl
          have hm1 : (getOrCreatePrefs s.prefs u.id).2 = s.prefs :=
            congrArg Prod.snd (getOrCreate_of_some hq)
          have hwa : wouldAttempt db now (getOrCreatePrefs s.prefs u.id).1 u.id = false := by
            rw [hep]
            unfold wouldAttempt
            rw [hqr]
            simp
          have hstep : processRecipient db now d s u =
              { s with prefs := (getOrCreatePrefs s.prefs u.id).2 } := by
            rw [processRecipient_eq, if_neg]
            rw [hwa]
            simp
          rw [hstep]
          simp only
          rw [hm1]
          exact ⟨⟨q, hq, hqr⟩, hns⟩
        · refine ⟨⟨q, ?_, hqr⟩, ?_⟩
          · rw [processRecipient_prefs_frame db now d s u r hid]
            exact hq
          · rcases processRecipient_sentTo_eq db now d s u with hs | hs <;> rw [hs]
            · exact hns
            · intro hmem
              rcases List.mem_append.mp hmem with hm | hm
              · exact hns hm
              · have hre : r = u.id := by simpa using hm
                exact hid hre
    · have key := foldl_preserve (processRecipient db now d)
        (fun st => r ∉ st.sentTo) (digestRecipients db userB)
        ⟨db.prefs, 0, []⟩ (by simp) ?_
      · exact key
      · intro s u hu hns
        have hmem := mem_digestRecipients.mp hu
        have hne : u.id ≠ r := by
          intro he
          rcases hbad u hmem.1 he with hb1 | hb1
          · exact hmem.2.2.1 hb1
          · rw [hmem.2.2.2.1] at hb1
            exact Bool.noConfusion hb1
        rcases processRecipient_sentTo_eq db now d s u with hs | hs <;> rw [hs]
        · exact hns
        · intro hmem2
          rcases List.mem_append.mp hmem2 with hm | hm
          · exact hns hm
          · have hre : r = u.id := by simpa using hm
            exact hne hre.symm
  · rw [heq]
    simp

/-- Recipient 1 shares book 10 with actor 2 and book 20 is new, but 1 has
unsubscribed. -/
def c6db : DB :=
  { users := [⟨1, "a@example.org", true⟩, ⟨2, "b@example.org", true⟩]
    books := [⟨10, "Book1"⟩, ⟨20, "Book2"⟩]
    favs := [⟨1, 10, 0, ""⟩, ⟨2, 10, 1000000, ""⟩, ⟨2, 20, 1000000, ""⟩]
    prefs := [(1, { receiveRecommendationEmails := false
                    unsubscribedAt := some 5
                    lastRecommendationEmailSent := none })] }

theorem c6_witness :
    (alook c6db.prefs 1 = some { receiveRecommendationEmails := false
                                 unsubscribedAt := some 5
                                 lastRecommendationEmailSent := none }) ∧
    1 ∉ (runDigestPass c6db (Requester.auth 2) 1000500
          (fun _ _ => DispatchOutcome.delivered)).sentTo :=
  ⟨by decide,
   c6_unsubscribed_or_inactive_never_emailed c6db (Requester.auth 2) 1000500
     (fun _ _ => DispatchOutcome.delivered) 1
     (Or.inl ⟨{ receiveRecommendationEmails := false
                unsubscribedAt := some 5
                lastRecommendationEmailSent := none }, by decide, by decide⟩)⟩

/-- C3: the seven-day throttle. (i) A recipient with a recorded send less
than seven days old is skipped, with no send and no change to its
preference row; (ii) two passes within seven days send at most one email
to any recipient; (iii) a recipient with no recorded previous send is not
throttled: when the remaining conditions hold and the email block does not
raise, it is sent. -/
theorem c3_seven_day_throttle (db : DB) (req req2 : Requester) (now now2 : Nat)
    (d d2 : Nat → DigestPayload → DispatchOutcome) (r : Nat) (userB : Nat)
    (ur : UserRec) :
    (∀ p t, alook db.prefs r = some p →
       p.lastRecommendationEmailSent = some t → now - t < sevenDays →
       r ∉ (runDigestPass db req now d).sentTo ∧
       alook (runDigestPass db req now d).prefs r = some p) ∧
    (now2 - now < sevenDays → r ∈ (runDigestPass db req now d).sentTo →
       r ∉ (runDigestPass { db with prefs := (runDigestPass db req now d).prefs }
             req2 now2 d2).sentTo) ∧
    ((db.users.map (fun u => u.id)).Nodup → resolveActor db req = some userB →
       ur ∈ digestRecipients db userB →
       (∀ p, alook db.prefs ur.id = some p →
          p.receiveRecommendationEmails = true ∧
          p.lastRecommendationEmailSent = none) →
       ¬(allNewBooksFor db ur.id now = ∅) → ¬(newBooksFor db ur.id now = []) →
       d ur.id (digestPayloadFor db ur.id now) ≠ DispatchOutcome.raised →
       ur.id ∈ (runDigestPass db req now d).sentTo) := by
  refine ⟨?_, ?_, ?_⟩
  · intro p t hp ht hlt
    have h := digest_throttled_skip db req now d r p t hp ht hlt
    exact ⟨h.1, h.2⟩
  · intro hlt hsent
    obtain ⟨q, hq, hqt⟩ := digest_sent_timestamp db req now d r hsent
    have h := digest_throttled_skip
      { db with prefs := (runDigestPass db req now d).prefs } req2 now2 d2 r q now
      hq hqt hlt
    exact h.1
  · intro hn hb hr hp hne hnb hd
    have hp0 : ((alook db.prefs ur.id).getD
        defaultEmailPrefs).receiveRecommendationEmails = true ∧
        ((alook db.prefs ur.id).getD
          defaultEmailPrefs).lastRecommendationEmailSent = none := by
      cases hcase : alook db.prefs ur.id with
      | none => exact ⟨rfl, rfl⟩
      | some p => exact hp p hcase
    have hthr : throttledNow ((alook db.prefs ur.id).getD defaultEmailPrefs) now
        = false := by
      unfold throttledNow
      rw [hp0.2]
    have hwa : wouldAttempt db now
        ((alook db.prefs ur.id).getD defaultEmailPrefs) ur.id = true := by
      unfold wouldAttempt
      rw [hp0.1, hthr]
      simp [hne, hnb]
    have hcond : (wouldAttempt db now
        ((alook db.prefs ur.id).getD defaultEmailPrefs) ur.id &&
        !decide (d ur.id (digestPayloadFor db ur.id now) =
          DispatchOutcome.raised)) = true := by
      rw [hwa]
      simp [hd]
    exact ((digest_first_attempt db req now d userB ur hn hb hr).1 hcond).2

/-- Recipient 1 was last emailed at time 900000, less than seven days
before 1000500. -/
def c3db : DB :=
  { users := [⟨1, "a@example.org", true⟩, ⟨2, "b@example.org", true⟩]
    books := [⟨10, "Book1"⟩, ⟨20, "Book2"⟩]
    favs := [⟨1, 10, 0, ""⟩, ⟨2, 10, 1000000, ""⟩, ⟨2, 20, 1000000, ""⟩]
    prefs := [(1, { receiveRecommendationEmails := true
                    unsubscribedAt := none
                    lastRecommendationEmailSent := some 900000 })] }

/-- Same situation but recipient 1 has never been emailed. -/
def c3db2 : DB :=
  { users := [⟨1, "a@example.org", true⟩, ⟨2, "b@example.org", true⟩]
    books := [⟨10, "Book1"⟩, ⟨20, "Book2"⟩]
    favs := [⟨1, 10, 0, ""⟩, ⟨2, 10, 1000000, ""⟩, ⟨2, 20, 1000000, ""⟩]
    prefs := [] }

theorem c3_witness :
    (1000500 - 900000 < sevenDays ∧
     1 ∉ (runDigestPass c3db (Requester.auth 2) 1000500
           (fun _ _ => DispatchOutcome.delivered)).sentTo ∧
     alook (runDigestPass c3db (Requester.auth 2) 1000500
           (fun _ _ => DispatchOutcome.delivered)).prefs 1 =
       some { receiveRecommendationEmails := true
              unsubscribedAt := none
              lastRecommendationEmailSent := some 900000 }) ∧
    (alook c3db2.prefs 1 = none ∧
     1 ∈ (runDigestPass c3db2 (Requester.auth 2) 1000500
           (fun _ _ => DispatchOutcome.delivered)).sentTo) := by
  constructor
  · refine ⟨by decide, ?_⟩
    exact (c3_seven_day_throttle c3db (Requester.auth 2) (Requester.auth 2)
      1000500 1000500 (fun _ _ => DispatchOutcome.delivered)
      (fun _ _ => DispatchOutcome.delivered) 1 2 ⟨1, "a@example.org", true⟩).1
      { receiveRecommendationEmails := true
        unsubscribedAt := none
        lastRecommendationEmailSent := some 900000 } 900000
      (by decide) (by decide) (by decide)
  · refine ⟨by decide, ?_⟩
    refine (c3_seven_day_throttle c3db2 (Requester.auth 2) (Requester.auth 2)
      1000500 1000500 (fun _ _ => DispatchOutcome.delivered)
      (fun _ _ => DispatchOutcome.delivered) 1 2
      ⟨1, "a@example.org", true⟩).2.2 (by decide) (by decide) (by decide)
      ?_ (by decide) (by decide) (by decide)
    intro p hp
    have : alook c3db2.prefs 1 = (none : Option EmailPrefs) := by decide
    rw [this] at hp
    exact Option.noConfusion hp

/-- C1 (amended): for a digest recipient for which the attempt conditions
hold, the timestamp is written and the send counted exactly when the email
block does not raise; because send_mail is invoked with
fail_silently=True, a mail transport failure does not raise, so the
timestamp is written even then. Only an exception inside the try block
leaves the preference row at its fetched value; it is swallowed and the
pass continues. -/
theorem c1_timestamp_follows_no_raise (db : DB) (req : Requester) (now : Nat)
    (d : Nat → DigestPayload → DispatchOutcome) (userB : Nat) (ur : UserRec)
    (hn : (db.users.map (fun u => u.id)).Nodup)
    (hb : resolveActor db req = some userB)
    (hr : ur ∈ digestRecipients db userB)
    (hwa : wouldAttempt db now ((alook db.prefs ur.id).getD defaultEmailPrefs)
      ur.id = true) :
    (d ur.id (digestPayloadFor db ur.id now) ≠ DispatchOutcome.raised →
       alook (runDigestPass db req now d).prefs ur.id =
         some { (alook db.prefs ur.id).getD defaultEmailPrefs with
                lastRecommendationEmailSent := some now } ∧
       ur.id ∈ (runDigestPass db req now d).sentTo) ∧
    (d ur.id (digestPayloadFor db ur.id now) = DispatchOutcome.raised →
       alook (runDigestPass db req now d).prefs ur.id =
         some ((alook db.prefs ur.id).getD defaultEmailPrefs) ∧
       ur.id ∉ (runDigestPass db req now d).sentTo) := by
  constructor
  · intro hd
    have hcond : (wouldAttempt db now
        ((alook db.prefs ur.id).getD defaultEmailPrefs) ur.id &&
        !decide (d ur.id (digestPayloadFor db ur.id now) =
          DispatchOutcome.raised)) = true := by
      rw [hwa]
      simp [hd]
    exact (digest_first_attempt db req now d userB ur hn hb hr).1 hcond
  · intro hd
    have hcond : (wouldAttempt db now
        ((alook db.prefs ur.id).getD defaultEmailPrefs) ur.id &&
        !decide (d ur.id (digestPayloadFor db ur.id now) =
          DispatchOutcome.raised)) = false := by
      rw [hwa]
      simp [hd]
    exact (digest_first_attempt db req now d userB ur hn hb hr).2 hcond

/-- Recipient 1 shares book 10 with actor 2; book 20 is a fresh favorite
of 2 and new to 1. -/
def c1db : DB :=
  { users := [⟨1, "a@example.org", true⟩, ⟨2, "b@example.org", true⟩]
    books := [⟨10, "Book1"⟩, ⟨20, "Book2"⟩]
    favs := [⟨1, 10, 0, ""⟩, ⟨2, 10, 1000000, ""⟩, ⟨2, 20, 1000000, ""⟩]
    prefs := [] }

/-- The claim as frozen is false on the code: here the mail transport fails
for every recipient (no dispatch succeeds), yet the digest pass records
last_recommendation_email_sent = now for recipient 1 and counts the send,
because send_mail(fail_silently=True) does not raise on transport failure. -/
theorem c1_counterexample :
    alook c1db.prefs 1 = none ∧
    (runDigestPass c1db (Requester.auth 2) 1000500
      (fun _ _ => DispatchOutcome.smtpFailure)).sentTo = [1] ∧
    (runDigestPass c1db (Requester.auth 2) 1000500
      (fun _ _ => DispatchOutcome.smtpFailure)).emailsSent = 1 ∧
    alook (runDigestPass c1db (Requester.auth 2) 1000500
      (fun _ _ => DispatchOutcome.smtpFailure)).prefs 1 =
      some { receiveRecommendationEmails := true
             unsubscribedAt := none
             lastRecommendationEmailSent := some 1000500 } := by
  refine ⟨by decide, by decide, by decide, by decide⟩

theorem c1_witness :
    (alook (runDigestPass c1db (Requester.auth 2) 1000500
        (fun _ _ => DispatchOutcome.smtpFailure)).prefs 1 =
      some { receiveRecommendationEmails := true
             unsubscribedAt := none
             lastRecommendationEmailSent := some 1000500 } ∧
     1 ∈ (runDigestPass c1db (Requester.auth 2) 1000500
        (fun _ _ => DispatchOutcome.smtpFailure)).sentTo) ∧
    (alook (runDigestPass c1db (Requester.auth 2) 1000500
        (fun _ _ => DispatchOutcome.raised)).prefs 1 =
      some { receiveRecommendationEmails := true
             unsubscribedAt := none
             lastRecommendationEmailSent := none } ∧
     1 ∉ (runDigestPass c1db (Requester.auth 2) 1000500
        (fun _ _ => DispatchOutcome.raised)).sentTo) :=
  ⟨(c1_timestamp_follows_no_raise c1db (Requester.auth 2) 1000500
      (fun _ _ => DispatchOutcome.smtpFailure) 2 ⟨1, "a@example.org", true⟩
      (by decide) (by decide) (by decide) (by decide)).1 (by decide),
   (c1_timestamp_follows_no_raise c1db (Requester.auth 2) 1000500
      (fun _ _ => DispatchOutcome.raised) 2 ⟨1, "a@example.org", true⟩
      (by decide) (by decide) (by decide) (by decide)).2 (by decide)⟩

/-- C10: the unsubscribe endpoint leaves the whole database untouched when
the user id does not resolve or the token fails validation; when the token
validates it sets receive_recommendation_emails to false and
unsubscribed_at to now on the target row, preserving
last_recommendation_email_sent, every other preference row, and the rest
of the database. -/
theorem c10_unsubscribe_frame (db : DB) (uid : Option Nat)
    (checkToken : Nat → Bool) (now : Nat) :
    (unsubResolveUser db uid = none →
       unsubscribe_recommendations_view db uid checkToken now = (db, false)) ∧
    (∀ u, unsubResolveUser db uid = some u → checkToken u.id = false →
       unsubscribe_recommendations_view db uid checkToken now = (db, false)) ∧
    (∀ u, unsubResolveUser db uid = some u → checkToken u.id = true →
       (unsubscribe_recommendations_view db uid checkToken now).2 = true ∧
       (unsubscribe_recommendations_view db uid checkToken now).1.users = db.users ∧
       (unsubscribe_recommendations_view db uid checkToken now).1.books = db.books ∧
       (unsubscribe_recommendations_view db uid checkToken now).1.favs = db.favs ∧
       (∀ k, k ≠ u.id →
          alook (unsubscribe_recommendations_view db uid checkToken now).1.prefs k =
            alook db.prefs k) ∧
       alook (unsubscribe_recommendations_view db uid checkToken now).1.prefs u.id =
         some { receiveRecommendationEmails := false
                unsubscribedAt := some now
                lastRecommendationEmailSent :=
                  ((alook db.prefs u.id).getD
                    defaultEmailPrefs).lastRecommendationEmailSent }) := by
  refine ⟨?_, ?_, ?_⟩
  · intro h
    unfold unsubscribe_recommendations_view
    rw [h]
  · intro u h ht
    unfold unsubscribe_recommendations_view
    rw [h]
    simp [ht]
  · intro u h ht
    have he : unsubscribe_recommendations_view db uid checkToken now =
        ({ db with prefs := (aset (getOrCreatePrefs db.prefs u.id).2 u.id
             ({ (getOrCreatePrefs db.prefs u.id).1 with
                receiveRecommendationEmails := false,
                unsubscribedAt := some now })) }, true) := by
      unfold unsubscribe_recommendations_view
      rw [h]
      simp [ht]
    rw [he]
    refine ⟨rfl, rfl, rfl, rfl, ?_, ?_⟩
    · intro k hk
      exact (alook_aset_ne _ _ _ _ hk).trans (getOrCreate_snd_ne _ _ _ hk)
    · show alook (aset (getOrCreatePrefs db.prefs u.id).2 u.id
        ({ (getOrCreatePrefs db.prefs u.id).1 with
           receiveRecommendationEmails := false,
           unsubscribedAt := some now })) u.id = _
      rw [alook_aset_self, getOrCreate_snd_self]
      simp only [Option.map_some']
      rw [getOrCreate_fst]

/-- User 1 exists with a stored preference row carrying a send timestamp. -/
def c10db : DB :=
  { users := [⟨1, "x@example.org", true⟩]
    books := []
    favs := []
    prefs := [(1, { receiveRecommendationEmails := true
                    unsubscribedAt := none
                    lastRecommendationEmailSent := some 42 })] }

theorem c10_witness :
    (unsubscribe_recommendations_view c10db (some 1) (fun _ => false) 99
       = (c10db, false)) ∧
    (unsubscribe_recommendations_view c10db (some 7) (fun _ => true) 99
       = (c10db, false)) ∧
    (alook (unsubscribe_recommendations_view c10db (some 1) (fun _ => true) 99).1.prefs 1
       = some { receiveRecommendationEmails := false
                unsubscribedAt := some 99
                lastRecommendationEmailSent := some 42 }) := by
  refine ⟨?_, ?_, ?_⟩
  · exact (c10_unsubscribe_frame c10db (some 1) (fun _ => false) 99).2.1
      ⟨1, "x@example.org", true⟩ (by decide) (by decide)
  · exact (c10_unsubscribe_frame c10db (some 7) (fun _ => true) 99).1 (by decide)
  · exact (c10_unsubscribe_frame c10db (some 1) (fun _ => true) 99).2.2
      ⟨1, "x@example.org", true⟩ (by decide) (by decide) |>.2.2.2.2.2

/-! ## Merge lemmas -/

/-- At most one favorite row per (user, book) pair, the unique_together
invariant of UserFavoriteBook. -/
def FavsUnique (l : List Fav) : Prop :=
  l.Pairwise (fun f g => ¬(f.userId = g.userId ∧ f.bookId = g.bookId))

/-- There is a favorite row of user u for book b. -/
def HasFav (l : List Fav) (u b : Nat) : Prop :=
  ∃ f ∈ l, f.userId = u ∧ f.bookId = b

theorem hasFav_copyGuestFav (iu now : Nat) (acc : List Fav) (gf : Fav) (b : Nat) :
    HasFav (copyGuestFav iu now acc gf) iu b ↔ HasFav acc iu b ∨ gf.bookId = b := by
  unfold copyGuestFav
  by_cases h : acc.any (fun f => decide (f.userId = iu) && decide (f.bookId = gf.bookId)) = true
  · rw [if_pos h]
    simp only [List.any_eq_true, Bool.and_eq_true, decide_eq_true_eq] at h
    obtain ⟨f0, hf0, hu0, hb0⟩ := h
    constructor
    · exact Or.inl
    · rintro (hh | hh)
      · exact hh
      · exact ⟨f0, hf0, hu0, hb0.trans hh⟩
  · rw [if_neg h]
    unfold HasFav
    simp only [List.mem_append, List.mem_singleton]
    constructor
    · rintro ⟨f, hf | hf, hfp⟩
      · exact Or.inl ⟨f, hf, hfp⟩
      · subst hf
        exact Or.inr hfp.2
    · rintro (⟨f, hf, hfp⟩ | hh)
      · exact ⟨f, Or.inl hf, hfp⟩
      · exact ⟨_, Or.inr rfl, rfl, hh⟩

theorem hasFav_copy_fold (iu now : Nat) (gl : List Fav) (acc : List Fav) (b : Nat) :
    HasFav (gl.foldl (copyGuestFav iu now) acc) iu b ↔
      HasFav acc iu b ∨ ∃ gf ∈ gl, gf.bookId = b := by
  induction gl generalizing acc with
  | nil => simp
  | cons gf gl ih =>
      rw [List.foldl_cons, ih, hasFav_copyGuestFav]
      simp only [List.mem_cons]
      constructor
      · rintro ((hh | hh) | hh)
        · exact Or.inl hh
        · exact Or.inr ⟨gf, Or.inl rfl, hh⟩
        · obtain ⟨x, hx, hb⟩ := hh
          exact Or.inr ⟨x, Or.inr hx, hb⟩
      · rintro (hh | ⟨x, hx | hx, hb⟩)
        · exact Or.inl (Or.inl hh)
        · subst hx
          exact Or.inl (Or.inr hb)
        · exact Or.inr ⟨x, hx, hb⟩

theorem mem_copy_fold (iu now : Nat) (gl : List Fav) (acc : List Fav) (f : Fav)
    (h : f ∈ gl.foldl (copyGuestFav iu now) acc) : f ∈ acc ∨ f.userId = iu := by
  induction gl generalizing acc with
  | nil => exact Or.inl h
  | cons gf gl ih =>
      rw [List.foldl_cons] at h
      rcases ih _ h with hm | hm
      · unfold copyGuestFav at hm
        by_cases hc : acc.any
            (fun f => decide (f.userId = iu) && decide (f.bookId = gf.bookId)) = true
        · rw [if_pos hc] at hm
          exact Or.inl hm
        · rw [if_neg hc] at hm
          rcases List.mem_append.mp hm with hm2 | hm2
          · exact Or.inl hm2
          · right
            rw [List.mem_singleton.mp hm2]
      · exact Or.inr hm

theorem favsUnique_copy_fold (iu now : Nat) (gl : List Fav) (acc : List Fav)
    (h : FavsUnique acc) : FavsUnique (gl.foldl (copyGuestFav iu now) acc) := by
  induction gl generalizing acc with
  | nil => exact h
  | cons gf gl ih =>
      rw [List.foldl_cons]
      apply ih
      unfold copyGuestFav
      by_cases hc : acc.any
          (fun f => decide (f.userId = iu) && decide (f.bookId = gf.bookId)) = true
      · rw [if_pos hc]
        exact h
      · rw [if_neg hc]
        unfold FavsUnique
        rw [List.pairwise_append]
        refine ⟨h, List.pairwise_singleton _ _, ?_⟩
        intro a ha c hc2
        rw [List.mem_singleton.mp hc2]
        intro hcon
        apply hc
        simp only [List.any_eq_true, Bool.and_eq_true, decide_eq_true_eq]
        exact ⟨a, ha, hcon.1, hcon.2⟩

/-- C9: _merge_guest_favorites is idempotent; when the guest exists and is
distinct from the receiving user it deletes the guest identity and the
guest favorite rows, after the merge the receiving user has a favorite for
exactly the union of both previous favorite book sets, and the
one-row-per-(user, book) invariant is preserved (so the receiving user
ends with at most one favorite per book). -/
theorem c9_merge_guest_favorites (db : DB) (g u now now2 : Nat) :
    (merge_guest_favorites (merge_guest_favorites db (some g) u now)
       (some g) u now2 = merge_guest_favorites db (some g) u now) ∧
    (g ≠ u → (db.users.any (fun v => decide (v.id = g))) = true →
       (∀ v ∈ (merge_guest_favorites db (some g) u now).users, v.id ≠ g) ∧
       (∀ f ∈ (merge_guest_favorites db (some g) u now).favs, f.userId ≠ g) ∧
       (∀ b, HasFav (merge_guest_favorites db (some g) u now).favs u b ↔
             (∃ f ∈ db.favs, (f.userId = u ∨ f.userId = g) ∧ f.bookId = b)) ∧
       (FavsUnique db.favs →
          FavsUnique (merge_guest_favorites db (some g) u now).favs)) := by
  by_cases hgu : g = u
  · constructor
    · simp [merge_guest_favorites, hgu]
    · intro hne _
      exact absurd hgu hne
  · by_cases hex : (db.users.any (fun v => decide (v.id = g))) = true
    · have hc : merge_guest_favorites db (some g) u now =
          { users := db.users.filter (fun v => decide (v.id ≠ g))
            books := db.books
            favs := ((db.favs.filter (fun f => decide (f.userId = g))).foldl
              (copyGuestFav u now) db.favs).filter (fun f => decide (f.userId ≠ g))
            prefs := db.prefs.filter (fun p => decide (p.1 ≠ g)) } := by
        simp only [merge_guest_favorites]
        rw [if_neg hgu, if_neg (by simp [hex])]
      refine ⟨?_, ?_⟩
      · have hany2 : ((merge_guest_favorites db (some g) u now).users.any
            (fun v => decide (v.id = g))) = false := by
          rw [hc]
          cases hAB : (db.users.filter (fun v => decide (v.id ≠ g))).any
              (fun v => decide (v.id = g)) with
          | false => rfl
          | true =>
              exfalso
              simp only [List.any_eq_true, List.mem_filter,
                decide_eq_true_eq] at hAB
              obtain ⟨v, ⟨_, hv2⟩, hv3⟩ := hAB
              exact hv2 hv3
        set db2 := merge_guest_favorites db (some g) u now with hdb2
        simp only [merge_guest_favorites]
        rw [if_neg hgu, if_pos (by rw [hany2]; rfl)]
      · intro _ _
        refine ⟨?_, ?_, ?_, ?_⟩
        · rw [hc]
          intro v hv
          have := List.mem_filter.mp hv
          simpa using this.2
        · rw [hc]
          intro f hf
          have := List.mem_filter.mp hf
          simpa using this.2
        · intro b
          rw [hc]
          simp only
          have hfil : HasFav (((db.favs.filter
                (fun f => decide (f.userId = g))).foldl
                (copyGuestFav u now) db.favs).filter
                (fun f => decide (f.userId ≠ g))) u b ↔
              HasFav ((db.favs.filter (fun f => decide (f.userId = g))).foldl
                (copyGuestFav u now) db.favs) u b := by
            unfold HasFav
            constructor
            · rintro ⟨f, hf, hfp⟩
              exact ⟨f, (List.mem_filter.mp hf).1, hfp⟩
            · rintro ⟨f, hf, hfp⟩
              refine ⟨f, List.mem_filter.mpr ⟨hf, ?_⟩, hfp⟩
              rw [hfp.1]
              simp only [decide_eq_true_eq]
              exact fun he => hgu he.symm
          rw [hfil, hasFav_copy_fold]
          constructor
          · rintro (⟨f, hf, hfp⟩ | ⟨gf, hgf, hb⟩)
            · exact ⟨f, hf, Or.inl hfp.1, hfp.2⟩
            · have hm := List.mem_filter.mp hgf
              refine ⟨gf, hm.1, Or.inr (by simpa using hm.2), hb⟩
          · rintro ⟨f, hf, hu | hg, hb⟩
            · exact Or.inl ⟨f, hf, hu, hb⟩
            · exact Or.inr ⟨f, List.mem_filter.mpr ⟨hf, by simp [hg]⟩, hb⟩
        · intro hun
          rw [hc]
          simp only
          exact List.Pairwise.sublist (List.filter_sublist _)
            (favsUnique_copy_fold u now _ db.favs hun)
    · refine ⟨?_, ?_⟩
      · have h1 : ∀ t, merge_guest_favorites db (some g) u t = db := by
          intro t
          simp only [merge_guest_favorites]
          rw [if_neg hgu, if_pos (by simp [hex])]
        rw [h1, h1]
      · intro _ hcon
        exact absurd hcon hex

/-- Guest 5 loves books 10 and 20; user 1 already loves book 10. -/
def c9db : DB :=
  { users := [⟨1, "x@example.org", true⟩, ⟨5, "", true⟩]
    books := [⟨10, "Book1"⟩, ⟨20, "Book2"⟩]
    favs := [⟨1, 10, 0, ""⟩, ⟨5, 10, 1, "from guest"⟩, ⟨5, 20, 2, "guest 20"⟩]
    prefs := [(5, { receiveRecommendationEmails := true
                    unsubscribedAt := none
                    lastRecommendationEmailSent := none })] }

theorem c9_witness :
    (merge_guest_favorites (merge_guest_favorites c9db (some 5) 1 100)
       (some 5) 1 200 = merge_guest_favorites c9db (some 5) 1 100) ∧
    (∀ v ∈ (merge_guest_favorites c9db (some 5) 1 100).users, v.id ≠ 5) ∧
    (HasFav (merge_guest_favorites c9db (some 5) 1 100).favs 1 20 ↔
       ∃ f ∈ c9db.favs, (f.userId = 1 ∨ f.userId = 5) ∧ f.bookId = 20) := by
  have h := c9_merge_guest_favorites c9db 5 1 100 200
  have h2 := h.2 (by decide) (by decide)
  exact ⟨h.1, h2.1, h2.2.2.1 20⟩

/-! ## Recommendation view lemmas -/

theorem recommendationView_empty (db : DB) (req : Requester)
    (h : myFavoriteIds db req = ∅) :
    recommendationView db req =
      { groupedRecommendations := []
        totalFavorites := 0
        similarUsersCount := 0
        recommendationsCount := 0
        message := some noFavoritesMessage
        showAccountPrompt := false
        showNoNewBooksMessage := none } := by
  simp only [recommendationView]
  rw [if_pos h]

theorem recommendationView_main (db : DB) (req : Requester)
    (h : ¬(myFavoriteIds db req = ∅)) :
    recommendationView db req =
      { groupedRecommendations := groupedRecList db
          (recommendedData db (myFavoriteIds db req) (consideredNeighbors db req))
        totalFavorites := (myFavoriteIds db req).card
        similarUsersCount := (consideredNeighbors db req).length
        recommendationsCount := (recommendedData db (myFavoriteIds db req)
          (consideredNeighbors db req)).length
        message := none
        showAccountPrompt := !isAuthenticated req &&
          decide (0 < (myFavoriteIds db req).card)
        showNoNewBooksMessage := some
          (decide (0 < (consideredNeighbors db req).length) &&
           decide ((recommendedData db (myFavoriteIds db req)
             (consideredNeighbors db req)).length = 0)) } := by
  simp only [recommendationView]
  rw [if_neg h]

/-- C7: with an empty favorite set the view returns a valid empty result
carrying the no-favorites diagnostic (groups empty, total_favorites 0 and
the message set, with no show_no_new_books flag); with a non-empty
favorite set the message is absent, total_favorites is positive and the
show_no_new_books flag is present, so the two cases are distinguishable. -/
theorem c7_empty_favorites_diagnostic (db : DB) (req : Requester) :
    (myFavoriteIds db req = ∅ →
       recommendationView db req =
         { groupedRecommendations := []
           totalFavorites := 0
           similarUsersCount := 0
           recommendationsCount := 0
           message := some noFavoritesMessage
           showAccountPrompt := false
           showNoNewBooksMessage := none }) ∧
    (¬(myFavoriteIds db req = ∅) →
       (recommendationView db req).message = none ∧
       0 < (recommendationView db req).totalFavorites ∧
       ∃ flag, (recommendationView db req).showNoNewBooksMessage = some flag) := by
  constructor
  · exact recommendationView_empty db req
  · intro h
    rw [recommendationView_main db req h]
    refine ⟨rfl, ?_, ⟨_, rfl⟩⟩
    rw [Finset.card_pos]
    exact Finset.nonempty_iff_ne_empty.mpr h

/-- User 1 loves books 10 and 20, user 2 loves 10 and 30. -/
def c7db : DB :=
  { users := [⟨1, "x@example.org", true⟩, ⟨2, "y@example.org", true⟩]
    books := [⟨10, "Book1"⟩, ⟨20, "Book2"⟩, ⟨30, "Book3"⟩]
    favs := [⟨1, 10, 0, ""⟩, ⟨1, 20, 0, ""⟩, ⟨2, 10, 0, ""⟩, ⟨2, 30, 0, "great"⟩]
    prefs := [] }

theorem c7_witness :
    (recommendationView c7db (Requester.guest none) =
      { groupedRecommendations := []
        totalFavorites := 0
        similarUsersCount := 0
        recommendationsCount := 0
        message := some noFavoritesMessage
        showAccountPrompt := false
        showNoNewBooksMessage := none }) ∧
    ((recommendationView c7db (Requester.auth 1)).message = none ∧
     0 < (recommendationView c7db (Requester.auth 1)).totalFavorites ∧
     ∃ flag, (recommendationView c7db (Requester.auth 1)).showNoNewBooksMessage
       = some flag) :=
  ⟨(c7_empty_favorites_diagnostic c7db (Requester.guest none)).1 (by decide),
   (c7_empty_favorites_diagnostic c7db (Requester.auth 1)).2 (by decide)⟩

theorem mem_aset {α : Type} {m : List (Nat × α)} {k : Nat} {v : α}
    {p : Nat × α} (h : p ∈ aset m k v) : p ∈ m ∨ p = (k, v) := by
  unfold aset at h
  obtain ⟨q, hq, hqe⟩ := List.mem_map.mp h
  by_cases hqk : q.1 = k
  · rw [if_pos hqk] at hqe
    exact Or.inr hqe.symm
  · rw [if_neg hqk] at hqe
    exact Or.inl (hqe ▸ hq)

theorem mem_updateBookRec {db : DB} {F : Finset Nat} {u : Nat}
    {m : List (Nat × RecEntry)} {b : Nat} {p : Nat × RecEntry}
    (h : p ∈ updateBookRec db F u m b) :
    p ∈ m ∨ (p = (b, recEntryOf db F u b) ∧ b ∉ F) := by
  unfold updateBookRec at h
  by_cases hf : b ∈ F
  · rw [if_pos hf] at h
    exact Or.inl h
  · rw [if_neg hf] at h
    cases ha : alook m b with
    | none =>
        rw [ha] at h
        rcases List.mem_append.mp h with hm | hm
        · exact Or.inl hm
        · exact Or.inr ⟨List.mem_singleton.mp hm, hf⟩
    | some e =>
        rw [ha] at h
        simp only at h
        by_cases hcmp : e.overlapCount < overlapCountOf db F u
        · rw [if_pos hcmp] at h
          rcases mem_aset h with hm | hm
          · exact Or.inl hm
          · exact Or.inr ⟨hm, hf⟩
        · rw [if_neg hcmp] at h
          exact Or.inl h

theorem mem_book_fold {db : DB} {F : Finset Nat} {u : Nat} {bs : List Nat}
    {m : List (Nat × RecEntry)} {p : Nat × RecEntry}
    (h : p ∈ bs.foldl (updateBookRec db F u) m) :
    p ∈ m ∨ (∃ b ∈ bs, p = (b, recEntryOf db F u b) ∧ b ∉ F) := by
  induction bs generalizing m with
  | nil => exact Or.inl h
  | cons b0 bs ih =>
      rw [List.foldl_cons] at h
      rcases ih h with hm | ⟨b, hb, he⟩
      · rcases mem_updateBookRec hm with hm2 | hm2
        · exact Or.inl hm2
        · exact Or.inr ⟨b0, List.mem_cons_self _ _, hm2⟩
      · exact Or.inr ⟨b, List.mem_cons_of_mem _ hb, he⟩

theorem mem_theirFavIdsList {db : DB} {u b : Nat} :
    b ∈ theirFavIdsList db u ↔ b ∈ favSet db u := by
  unfold theirFavIdsList favSet
  rw [List.mem_dedup, List.mem_toFinset]

theorem mem_neighbor_fold {db : DB} {F : Finset Nat} {ns : List UserRec}
    {m : List (Nat × RecEntry)} {p : Nat × RecEntry}
    (h : p ∈ ns.foldl (addNeighborRecs db F) m) :
    p ∈ m ∨ (∃ v ∈ ns, ∃ b, p = (b, recEntryOf db F v.id b) ∧
      b ∈ favSet db v.id ∧ b ∉ F) := by
  induction ns generalizing m with
  | nil => exact Or.inl h
  | cons v ns ih =>
      rw [List.foldl_cons] at h
      rcases ih h with hm | ⟨v2, hv2, b, he⟩
      · rcases mem_book_fold hm with hm2 | ⟨b, hb, he, hf⟩
        · exact Or.inl hm2
        · exact Or.inr ⟨v, List.mem_cons_self _ _, b, he,
            mem_theirFavIdsList.mp hb, hf⟩
      · exact Or.inr ⟨v2, List.mem_cons_of_mem _ hv2, b, he⟩

theorem mem_bookRecommendationsMap {db : DB} {F : Finset Nat}
    {ns : List UserRec} {p : Nat × RecEntry}
    (h : p ∈ bookRecommendationsMap db F ns) :
    ∃ v ∈ ns, ∃ b, p = (b, recEntryOf db F v.id b) ∧
      b ∈ favSet db v.id ∧ b ∉ F := by
  rcases mem_neighbor_fold h with hm | hm
  · simp at hm
  · exact hm

theorem mem_recommendedData {db : DB} {F : Finset Nat} {ns : List UserRec}
    {r : RecEntry} (h : r ∈ recommendedData db F ns) :
    ∃ v ∈ ns, ∃ b, r = recEntryOf db F v.id b ∧
      b ∈ favSet db v.id ∧ b ∉ F := by
  unfold recommendedData at h
  rw [(List.mergeSort_perm _ _).mem_iff] at h
  obtain ⟨p, hp, hpe⟩ := List.mem_map.mp h
  obtain ⟨v, hv, b, he, hb, hf⟩ := mem_bookRecommendationsMap hp
  exact ⟨v, hv, b, by rw [← hpe, he], hb, hf⟩

/-- Every group of the grouped output is built from entries of the
recommended_data list: its key fields come from some entry, and every book
in it comes from an entry of the same neighbor. -/
theorem groupedRecList_from_recs (db : DB) (recs : List RecEntry)
    (g : RecommendationGroup) (hg : g ∈ groupedRecList db recs) :
    (∃ r ∈ recs, r.similarUser = g.similarUser ∧
       r.overlapCount = g.overlapCount) ∧
    (∀ rb ∈ g.recommendedBooks, ∃ r ∈ recs, r.similarUser = g.similarUser ∧
       r.bookId = rb.bookId) := by
  unfold groupedRecList at hg
  rw [(List.mergeSort_perm _ _).mem_iff] at hg
  obtain ⟨q, hq, hqe⟩ := List.mem_map.mp hg
  have key : ∀ (l : List RecEntry) (acc : List (Nat × RecommendationGroup)),
      (∀ q2 ∈ acc, q2.1 = q2.2.similarUser ∧
        (∃ r ∈ recs, r.similarUser = q2.2.similarUser ∧
          r.overlapCount = q2.2.overlapCount) ∧
        (∀ rb ∈ q2.2.recommendedBooks, ∃ r ∈ recs,
          r.similarUser = q2.2.similarUser ∧ r.bookId = rb.bookId)) →
      (∀ r ∈ l, r ∈ recs) →
      ∀ q2 ∈ l.foldl (addRecToGroups db) acc, q2.1 = q2.2.similarUser ∧
        (∃ r ∈ recs, r.similarUser = q2.2.similarUser ∧
          r.overlapCount = q2.2.overlapCount) ∧
        (∀ rb ∈ q2.2.recommendedBooks, ∃ r ∈ recs,
          r.similarUser = q2.2.similarUser ∧ r.bookId = rb.bookId) := by
    intro l
    induction l with
    | nil => intro acc hacc _; exact hacc
    | cons r0 l ih =>
        intro acc hacc hsub
        apply ih
        · intro q2 hq2
          unfold addRecToGroups at hq2
          have hr0 : r0 ∈ recs := hsub r0 (List.mem_cons_self _ _)
          cases ha : alook acc r0.similarUser with
          | none =>
              rw [ha] at hq2
              simp only at hq2
              rcases List.mem_append.mp hq2 with hm | hm
              · exact hacc q2 hm
              · rw [List.mem_singleton.mp hm]
                refine ⟨rfl, ⟨r0, hr0, rfl, rfl⟩, ?_⟩
                intro rb hrb
                rw [List.mem_singleton.mp hrb]
                exact ⟨r0, hr0, rfl, rfl⟩
          | some g0 =>
              rw [ha] at hq2
              simp only at hq2
              rcases mem_aset hq2 with hm | hm
              · exact hacc q2 hm
              · have hg0 := hacc (r0.similarUser, g0) (mem_of_alook_eq_some ha)
                rw [hm]
                refine ⟨hg0.1, ?_, ?_⟩
                · exact hg0.2.1
                · intro rb hrb
                  rcases List.mem_append.mp hrb with hb | hb
                  · exact hg0.2.2 rb hb
                  · rw [List.mem_singleton.mp hb]
                    refine ⟨r0, hr0, ?_, rfl⟩
                    exact hg0.1.symm ▸ rfl
        · intro r hr
          exact hsub r (List.mem_cons_of_mem _ hr)
  have hkey := key recs [] (by simp) (fun r hr => hr) q hq
  rw [hqe] at hkey
  exact ⟨hkey.2.1, hkey.2.2⟩

theorem fav_mem_favSet {db : DB} {u : Nat} {f : Fav} (hf : f ∈ favsOf db u) :
    f.bookId ∈ favSet db u :=
  List.mem_toFinset.mpr (List.mem_map.mpr ⟨f, hf, rfl⟩)

/-- A considered neighbor shares at least one favorite with the target. -/
theorem considered_shares (db : DB) (req : Requester) (u : UserRec)
    (hu : u ∈ consideredNeighbors db req) :
    ∃ b, b ∈ myFavoriteIds db req ∧ b ∈ favSet db u.id := by
  unfold consideredNeighbors at hu
  have hbase : u ∈ db.users.filter (fun v =>
      (favsOf db v.id).any (fun fav => decide (fav.bookId ∈ myFavoriteIds db req))) := by
    cases req with
    | auth uid => exact (List.mem_filter.mp hu).1
    | guest s => exact hu
  have h2 := (List.mem_filter.mp hbase).2
  simp only [List.any_eq_true, decide_eq_true_eq] at h2
  obtain ⟨f, hf, hfb⟩ := h2
  exact ⟨f.bookId, hfb, fav_mem_favSet hf⟩

/-- A considered neighbor has overlap count at least one. -/
theorem considered_overlap_pos (db : DB) (req : Requester) (u : UserRec)
    (hu : u ∈ consideredNeighbors db req) :
    1 ≤ overlapCountOf db (myFavoriteIds db req) u.id := by
  obtain ⟨b, hbF, hbu⟩ := considered_shares db req u hu
  unfold overlapCountOf
  rw [Nat.one_le_iff_ne_zero, Ne, Finset.card_eq_zero]
  intro he
  have : b ∈ overlapIdsOf db (myFavoriteIds db req) u.id :=
    Finset.mem_inter.mpr ⟨hbF, hbu⟩
  rw [he] at this
  exact Finset.not_mem_empty _ this

/-- The identity of the requester: the authenticated id or the session
guest id. -/
def requesterId (req : Requester) : Option Nat :=
  match req with
  | .auth uid => some uid
  | .guest s => s

/-- When the requester resolves to i and the favorite set is non-empty, the
favorite set is the favorite set of user i. -/
theorem myFavoriteIds_eq_favSet (db : DB) (req : Requester) (i : Nat)
    (hi : requesterId req = some i) (hF : ¬(myFavoriteIds db req = ∅)) :
    myFavoriteIds db req = favSet db i := by
  cases req with
  | auth uid =>
      simp only [requesterId] at hi
      injection hi with huid
      subst huid
      rfl
  | guest s =>
      cases s with
      | none => simp [requesterId] at hi
      | some gid =>
          simp only [requesterId] at hi
          injection hi with hgid
          rw [← hgid]
          simp only [myFavoriteIds] at hF ⊢
          by_cases hex : (db.users.any (fun u => decide (u.id = gid))) = true
          · rw [if_pos hex]
          · rw [if_neg hex] at hF
            exact absurd rfl hF

/-- C2: no book in any group of the rendered recommendation output is one
of the target favorites, and likewise for the ungrouped
get_book_recommendations helper. -/
theorem c2_no_self_recommendation (db : DB) (req : Requester) (cu : Nat) :
    (∀ g ∈ (recommendationView db req).groupedRecommendations,
       ∀ rb ∈ g.recommendedBooks, rb.bookId ∉ myFavoriteIds db req) ∧
    (∀ r ∈ get_book_recommendations db cu, r.bookId ∉ favSet db cu) := by
  constructor
  · intro g hg rb hrb
    by_cases hF : myFavoriteIds db req = ∅
    · rw [recommendationView_empty db req hF] at hg
      simp at hg
    · rw [recommendationView_main db req hF] at hg
      simp only at hg
      obtain ⟨-, hbooks⟩ := groupedRecList_from_recs db _ g hg
      obtain ⟨r, hr, -, hrb2⟩ := hbooks rb hrb
      obtain ⟨v, hv, b, he, hb, hf⟩ := mem_recommendedData hr
      rw [← hrb2, he]
      exact hf
  · intro r hr
    simp only [get_book_recommendations] at hr
    by_cases hF : favSet db cu = ∅
    · rw [if_pos hF] at hr
      simp at hr
    · rw [if_neg hF] at hr
      obtain ⟨v, hv, b, he, hb, hf⟩ := mem_recommendedData hr
      rw [he]
      exact hf

/-- User 1 loves 10 and 20; user 2 loves 10 and 30 (Scenario A). -/
def c2db : DB :=
  { users := [⟨1, "x@example.org", true⟩, ⟨2, "y@example.org", true⟩]
    books := [⟨10, "Book1"⟩, ⟨20, "Book2"⟩, ⟨30, "Book3"⟩]
    favs := [⟨1, 10, 0, ""⟩, ⟨1, 20, 0, ""⟩, ⟨2, 10, 0, ""⟩, ⟨2, 30, 0, "great"⟩]
    prefs := [] }

theorem mergeSort_singleton_eq {α : Type} (le : α → α → Bool) (x : α) :
    [x].mergeSort le = [x] := by
  simp [List.mergeSort]

theorem c2db_recs :
    recommendedData c2db (myFavoriteIds c2db (Requester.auth 1))
      (consideredNeighbors c2db (Requester.auth 1)) =
    [{ bookId := 30, similarUser := 2, overlapCount := 1,
       overlappingTitles := ["Book1"] }] := by
  unfold recommendedData
  have h2 : (bookRecommendationsMap c2db (myFavoriteIds c2db (Requester.auth 1))
      (consideredNeighbors c2db (Requester.auth 1))).map (fun p => p.2) =
      [{ bookId := 30, similarUser := 2, overlapCount := 1,
         overlappingTitles := ["Book1"] }] := by decide
  rw [h2, mergeSort_singleton_eq]

theorem c2db_groups :
    (recommendationView c2db (Requester.auth 1)).groupedRecommendations =
    [{ similarUser := 2, overlapCount := 1, overlappingTitles := ["Book1"],
       recommendedBooks := [{ bookId := 30, explanation := "great" }] }] := by
  rw [recommendationView_main c2db (Requester.auth 1) (by decide)]
  simp only
  rw [c2db_recs]
  unfold groupedRecList
  have h3 : (([({ bookId := 30, similarUser := 2, overlapCount := 1,
                  overlappingTitles := ["Book1"] } : RecEntry)].foldl
        (addRecToGroups c2db) []).map (fun p => p.2)) =
      [{ similarUser := 2, overlapCount := 1, overlappingTitles := ["Book1"],
         recommendedBooks := [{ bookId := 30, explanation := "great" }] }] := by
    decide
  rw [h3, mergeSort_singleton_eq]

theorem c2_witness :
    (({ similarUser := 2
        overlapCount := 1
        overlappingTitles := ["Book1"]
        recommendedBooks := [{ bookId := 30, explanation := "great" }] } :
       RecommendationGroup) ∈
      (recommendationView c2db (Requester.auth 1)).groupedRecommendations) ∧
    (30 : Nat) ∉ myFavoriteIds c2db (Requester.auth 1) :=
  ⟨by rw [c2db_groups]; exact List.mem_singleton.mpr rfl,
   (c2_no_self_recommendation c2db (Requester.auth 1) 1).1
     { similarUser := 2
       overlapCount := 1
       overlappingTitles := ["Book1"]
       recommendedBooks := [{ bookId := 30, explanation := "great" }] }
     (by rw [c2db_groups]; exact List.mem_singleton.mpr rfl)
     { bookId := 30, explanation := "great" } (by decide)⟩

/-- A lone session guest, user 1, with one favorite. -/
def c5db : DB :=
  { users := [⟨1, "", true⟩]
    books := [⟨10, "Book1"⟩]
    favs := [⟨1, 10, 0, ""⟩]
    prefs := [] }

/-- The claim as frozen is false on the code: for a session-backed guest,
the target user is not excluded from the similar_users queryset, so the
guest appears as a considered neighbor of their own request and is counted
in similar_users_count. -/
theorem c5_counterexample :
    requesterId (Requester.guest (some 1)) = some 1 ∧
    (consideredNeighbors c5db (Requester.guest (some 1))).map (fun u => u.id)
      = [1] ∧
    (recommendationView c5db (Requester.guest (some 1))).similarUsersCount = 1 := by
  refine ⟨rfl, by decide, ?_⟩
  rw [recommendationView_main c5db (Requester.guest (some 1)) (by decide)]
  decide

/-- C5 (amended): for an authenticated target every considered neighbor is
distinct from the target; every considered neighbor (including, for a
guest, the target itself) shares at least one favorite with the target;
and every returned group has overlap_count at least 1 and a neighbor
distinct from the target, because the target itself never offers a
candidate book. -/
theorem c5_neighbors_amended (db : DB) (req : Requester) :
    (∀ uid, req = Requester.auth uid →
       ∀ u ∈ consideredNeighbors db req, u.id ≠ uid) ∧
    (∀ u ∈ consideredNeighbors db req,
       ∃ b, b ∈ myFavoriteIds db req ∧ b ∈ favSet db u.id) ∧
    (∀ g ∈ (recommendationView db req).groupedRecommendations,
       1 ≤ g.overlapCount ∧ ∀ i, requesterId req = some i → g.similarUser ≠ i) := by
  refine ⟨?_, ?_, ?_⟩
  · intro uid hreq u hu
    subst hreq
    unfold consideredNeighbors at hu
    simp only at hu
    have := (List.mem_filter.mp hu).2
    simpa using this
  · exact fun u hu => considered_shares db req u hu
  · intro g hg
    by_cases hF : myFavoriteIds db req = ∅
    · rw [recommendationView_empty db req hF] at hg
      simp at hg
    · rw [recommendationView_main db req hF] at hg
      simp only at hg
      obtain ⟨⟨r, hr, hsim, hove⟩, -⟩ := groupedRecList_from_recs db _ g hg
      obtain ⟨v, hv, b, he, hb, hbf⟩ := mem_recommendedData hr
      have hov : r.overlapCount = overlapCountOf db (myFavoriteIds db req) v.id := by
        rw [he]
        rfl
      have hsu : r.similarUser = v.id := by
        rw [he]
        rfl
      constructor
      · rw [← hove, hov]
        exact considered_overlap_pos db req v hv
      · intro i hi hcon
        have hvi : v.id = i := by
          rw [← hsu, hsim, hcon]
        have hFs := myFavoriteIds_eq_favSet db req i hi hF
        apply hbf
        rw [hFs, ← hvi]
        exact hb

/-- User 1 loves 10 and 20; user 2 loves 10 and 30. -/
def c5wdb : DB :=
  { users := [⟨1, "x@example.org", true⟩, ⟨2, "y@example.org", true⟩]
    books := [⟨10, "Book1"⟩, ⟨20, "Book2"⟩, ⟨30, "Book3"⟩]
    favs := [⟨1, 10, 0, ""⟩, ⟨1, 20, 0, ""⟩, ⟨2, 10, 0, ""⟩, ⟨2, 30, 0, "great"⟩]
    prefs := [] }

theorem c5wdb_groups :
    (recommendationView c5wdb (Requester.auth 1)).groupedRecommendations =
    [{ similarUser := 2, overlapCount := 1, overlappingTitles := ["Book1"],
       recommendedBooks := [{ bookId := 30, explanation := "great" }] }] := by
  rw [recommendationView_main c5wdb (Requester.auth 1) (by decide)]
  simp only
  have h2 : (bookRecommendationsMap c5wdb (myFavoriteIds c5wdb (Requester.auth 1))
      (consideredNeighbors c5wdb (Requester.auth 1))).map (fun p => p.2) =
      [{ bookId := 30, similarUser := 2, overlapCount := 1,
         overlappingTitles := ["Book1"] }] := by decide
  unfold recommendedData
  rw [h2, mergeSort_singleton_eq]
  unfold groupedRecList
  have h3 : (([({ bookId := 30, similarUser := 2, overlapCount := 1,
                  overlappingTitles := ["Book1"] } : RecEntry)].foldl
        (addRecToGroups c5wdb) []).map (fun p => p.2)) =
      [{ similarUser := 2, overlapCount := 1, overlappingTitles := ["Book1"],
         recommendedBooks := [{ bookId := 30, explanation := "great" }] }] := by
    decide
  rw [h3, mergeSort_singleton_eq]

theorem c5_witness :
    ((2 : Nat) ≠ 1) ∧
    (∃ b, b ∈ myFavoriteIds c5wdb (Requester.auth 1) ∧
       b ∈ favSet c5wdb 2) ∧
    (1 ≤ ({ similarUser := 2, overlapCount := 1, overlappingTitles := ["Book1"],
            recommendedBooks := [{ bookId := 30, explanation := "great" }] } :
          RecommendationGroup).overlapCount) ∧
    (({ similarUser := 2, overlapCount := 1, overlappingTitles := ["Book1"],
        recommendedBooks := [{ bookId := 30, explanation := "great" }] } :
       RecommendationGroup).similarUser ≠ 1) := by
  have h := c5_neighbors_amended c5wdb (Requester.auth 1)
  have hg := h.2.2
    { similarUser := 2, overlapCount := 1, overlappingTitles := ["Book1"],
      recommendedBooks := [{ bookId := 30, explanation := "great" }] }
    (by rw [c5wdb_groups]; exact List.mem_singleton.mpr rfl)
  refine ⟨?_, ?_, hg.1, hg.2 1 rfl⟩
  · exact h.1 1 rfl ⟨2, "y@example.org", true⟩ (by decide)
  · exact h.2.1 ⟨2, "y@example.org", true⟩ (by decide)

/-- C8: a considered neighbor whose whole favorite set is contained in the
target favorites contributes no recommendation group, yet the diagnostic
similar_users_count is the size of the considered neighbor list, which
includes it. -/
theorem c8_subset_neighbor_counted (db : DB) (req : Requester) (u : UserRec)
    (hu : u ∈ consideredNeighbors db req)
    (hsub : favSet db u.id ⊆ myFavoriteIds db req) :
    (∀ g ∈ (recommendationView db req).groupedRecommendations,
       g.similarUser ≠ u.id) ∧
    (recommendationView db req).similarUsersCount =
      (consideredNeighbors db req).length ∧
    0 < (recommendationView db req).similarUsersCount := by
  have hF : ¬(myFavoriteIds db req = ∅) := by
    obtain ⟨b, hbF, -⟩ := considered_shares db req u hu
    intro he
    rw [he] at hbF
    exact Finset.not_mem_empty _ hbF
  refine ⟨?_, ?_, ?_⟩
  · intro g hg hcon
    rw [recommendationView_main db req hF] at hg
    simp only at hg
    obtain ⟨⟨r, hr, hsim, -⟩, -⟩ := groupedRecList_from_recs db _ g hg
    obtain ⟨v, hv, b, he, hb, hbf⟩ := mem_recommendedData hr
    have hsu : r.similarUser = v.id := by
      rw [he]
      rfl
    have hvu : v.id = u.id := by
      rw [← hsu, hsim, hcon]
    apply hbf
    apply hsub
    rw [← hvu]
    exact hb
  · rw [recommendationView_main db req hF]
  · rw [recommendationView_main db req hF]
    simp only
    exact List.length_pos_of_mem hu

/-- Users 1 and 2 both love exactly book 10 (Scenario C). -/
def c8db : DB :=
  { users := [⟨1, "x@example.org", true⟩, ⟨2, "y@example.org", true⟩]
    books := [⟨10, "Book1"⟩]
    favs := [⟨1, 10, 0, ""⟩, ⟨2, 10, 0, ""⟩]
    prefs := [] }

theorem c8_witness :
    ((⟨2, "y@example.org", true⟩ : UserRec) ∈
      consideredNeighbors c8db (Requester.auth 1)) ∧
    favSet c8db 2 ⊆ myFavoriteIds c8db (Requester.auth 1) ∧
    (recommendationView c8db (Requester.auth 1)).similarUsersCount =
      (consideredNeighbors c8db (Requester.auth 1)).length ∧
    0 < (recommendationView c8db (Requester.auth 1)).similarUsersCount := by
  have h := c8_subset_neighbor_counted c8db (Requester.auth 1)
    ⟨2, "y@example.org", true⟩ (by decide) (by decide)
  exact ⟨by decide, by decide, h.2.1, h.2.2⟩

/-! ## Winner-take-most-overlap attribution lemmas -/

/-- The value the book_recommendations slot for b holds after neighbor u
processes b, as a function of the previous slot value. -/
def slotUpdate (db : DB) (F : Finset Nat) (u b : Nat) (o : Option RecEntry) :
    RecEntry :=
  match o with
  | none => recEntryOf db F u b
  | some e =>
      if e.overlapCount < overlapCountOf db F u then recEntryOf db F u b else e

theorem alook_updateBookRec_other {db : DB} {F : Finset Nat} {u : Nat}
    {m : List (Nat × RecEntry)} {b c : Nat} (h : ¬(c = b ∧ b ∉ F)) :
    alook (updateBookRec db F u m b) c = alook m c := by
  unfold updateBookRec
  by_cases hf : b ∈ F
  · rw [if_pos hf]
  · rw [if_neg hf]
    have hcb : c ≠ b := fun hcb => h ⟨hcb, hf⟩
    cases ha : alook m b with
    | none =>
        simp only
        rw [alook_append, alook_cons, alook_nil, if_neg (fun he => hcb he.symm)]
        cases alook m c <;> rfl
    | some e =>
        simp only
        by_cases hcmp : e.overlapCount < overlapCountOf db F u
        · rw [if_pos hcmp, alook_aset_ne _ _ _ _ hcb]
        · rw [if_neg hcmp]

theorem alook_updateBookRec_self {db : DB} {F : Finset Nat} {u : Nat}
    {m : List (Nat × RecEntry)} {b : Nat} (hf : b ∉ F) :
    alook (updateBookRec db F u m b) b =
      some (slotUpdate db F u b (alook m b)) := by
  unfold updateBookRec slotUpdate
  rw [if_neg hf]
  cases ha : alook m b with
  | none =>
      simp only
      rw [alook_append, ha, alook_cons, if_pos rfl]
      rfl
  | some e =>
      simp only
      by_cases hcmp : e.overlapCount < overlapCountOf db F u
      · rw [if_pos hcmp, if_pos hcmp, alook_aset_self, ha]
        rfl
      · rw [if_neg hcmp, if_neg hcmp, ha]

theorem slotUpdate_idem (db : DB) (F : Finset Nat) (u b : Nat)
    (o : Option RecEntry) :
    slotUpdate db F u b (some (slotUpdate db F u b o)) = slotUpdate db F u b o := by
  cases o with
  | none => simp [slotUpdate, recEntryOf]
  | some e =>
      by_cases hcmp : e.overlapCount < overlapCountOf db F u <;>
        simp [slotUpdate, hcmp, recEntryOf]

theorem alook_book_fold_other {db : DB} {F : Finset Nat} {u : Nat}
    (bs : List Nat) (m : List (Nat × RecEntry)) (c : Nat)
    (h : c ∉ bs ∨ c ∈ F) :
    alook (bs.foldl (updateBookRec db F u) m) c = alook m c := by
  induction bs generalizing m with
  | nil => rfl
  | cons b0 bs ih =>
      rw [List.foldl_cons]
      have h1 : ¬(c = b0 ∧ b0 ∉ F) := by
        rintro ⟨hcb, hbf⟩
        rcases h with h | h
        · subst hcb
          exact h (List.mem_cons_self _ _)
        · exact hbf (hcb ▸ h)
      have htail : c ∉ bs ∨ c ∈ F := by
        rcases h with h | h
        · exact Or.inl (fun hx => h (List.mem_cons_of_mem _ hx))
        · exact Or.inr h
      rw [ih (updateBookRec db F u m b0) htail, alook_updateBookRec_other h1]

theorem alook_book_fold_self {db : DB} {F : Finset Nat} {u : Nat}
    (bs : List Nat) (m : List (Nat × RecEntry)) (c : Nat)
    (hc : c ∈ bs) (hf : c ∉ F) :
    alook (bs.foldl (updateBookRec db F u) m) c =
      some (slotUpdate db F u c (alook m c)) := by
  induction bs generalizing m with
  | nil => simp at hc
  | cons b0 bs ih =>
      rw [List.foldl_cons]
      by_cases hcb : c = b0
      · subst hcb
        by_cases hcbs : c ∈ bs
        · rw [ih (updateBookRec db F u m c) hcbs, alook_updateBookRec_self hf,
            slotUpdate_idem]
        · rw [alook_book_fold_other bs _ c (Or.inl hcbs),
            alook_updateBookRec_self hf]
      · have hcbs : c ∈ bs := by
          rcases List.mem_cons.mp hc with h | h
          · exact absurd h hcb
          · exact h
        rw [ih (updateBookRec db F u m b0) hcbs,
          alook_updateBookRec_other (fun hh => hcb hh.1)]

theorem alook_addNeighborRecs (db : DB) (F : Finset Nat)
    (m : List (Nat × RecEntry)) (v : UserRec) (b : Nat) :
    alook (addNeighborRecs db F m v) b =
      if b ∈ favSet db v.id ∧ b ∉ F
      then some (slotUpdate db F v.id b (alook m b))
      else alook m b := by
  unfold addNeighborRecs
  by_cases h : b ∈ favSet db v.id ∧ b ∉ F
  · rw [if_pos h]
    exact alook_book_fold_self _ _ _ (mem_theirFavIdsList.mpr h.1) h.2
  · rw [if_neg h]
    apply alook_book_fold_other
    by_cases hb : b ∈ favSet db v.id
    · right
      by_contra hbf
      exact h ⟨hb, hbf⟩
    · left
      exact fun hmem => hb (mem_theirFavIdsList.mp hmem)

/-- Invariant of the book_recommendations dict after processing the
neighbors in seen: a missing slot means no processed neighbor offers the
book; a filled slot holds the entry of a processed neighbor that offers
the book, whose overlap is maximal among processed neighbors offering it. -/
def SpecAt (db : DB) (F : Finset Nat) (seen : List UserRec)
    (m : List (Nat × RecEntry)) (b : Nat) : Prop :=
  (alook m b = none → ∀ v ∈ seen, ¬(b ∈ favSet db v.id ∧ b ∉ F)) ∧
  (∀ e, alook m b = some e →
     e = recEntryOf db F e.similarUser b ∧ b ∉ F ∧
     (∃ v ∈ seen, v.id = e.similarUser ∧ b ∈ favSet db v.id) ∧
     (∀ v ∈ seen, b ∈ favSet db v.id →
        overlapCountOf db F v.id ≤ e.overlapCount))

theorem specAt_step (db : DB) (F : Finset Nat) (seen : List UserRec)
    (m : List (Nat × RecEntry)) (b : Nat) (v : UserRec)
    (h : SpecAt db F seen m b) :
    SpecAt db F (seen ++ [v]) (addNeighborRecs db F m v) b := by
  obtain ⟨hnone, hsome⟩ := h
  have ha := alook_addNeighborRecs db F m v b
  by_cases hc : b ∈ favSet db v.id ∧ b ∉ F
  · rw [if_pos hc] at ha
    constructor
    · intro h0
      rw [ha] at h0
      exact absurd h0 (by simp)
    · intro e he
      rw [ha] at he
      injection he with he2
      cases ham : alook m b with
      | none =>
          rw [ham] at he2
          have he3 : e = recEntryOf db F v.id b := by
            rw [← he2]
            rfl
          have hsim : e.similarUser = v.id := by
            rw [he3]
            rfl
          refine ⟨?_, hc.2, ⟨v, List.mem_append.mpr (Or.inr (List.mem_singleton.mpr rfl)),
            hsim.symm, hc.1⟩, ?_⟩
          · rw [hsim, he3]
          · intro v2 hv2 hbv2
            rcases List.mem_append.mp hv2 with hv2 | hv2
            · exact absurd ⟨hbv2, hc.2⟩ (hnone ham v2 hv2)
            · rw [List.mem_singleton.mp hv2, he3]
              exact le_refl _
      | some e0 =>
          rw [ham] at he2
          obtain ⟨prev1, prev2, ⟨v0, hv0, hv0id, hv0fav⟩, prev4⟩ := hsome e0 ham
          by_cases hcmp : e0.overlapCount < overlapCountOf db F v.id
          · have he3 : e = recEntryOf db F v.id b := by
              rw [← he2]
              unfold slotUpdate
              simp only
              rw [if_pos hcmp]
            have hsim : e.similarUser = v.id := by
              rw [he3]
              rfl
            refine ⟨?_, hc.2, ⟨v, List.mem_append.mpr (Or.inr (List.mem_singleton.mpr rfl)),
              hsim.symm, hc.1⟩, ?_⟩
            · rw [hsim, he3]
            · intro v2 hv2 hbv2
              have hecount : e.overlapCount = overlapCountOf db F v.id := by
                rw [he3]
                rfl
              rcases List.mem_append.mp hv2 with hv2 | hv2
              · calc overlapCountOf db F v2.id ≤ e0.overlapCount := prev4 v2 hv2 hbv2
                  _ ≤ overlapCountOf db F v.id := le_of_lt hcmp
                  _ = e.overlapCount := hecount.symm
              · rw [List.mem_singleton.mp hv2, hecount]
          · have he3 : e = e0 := by
              rw [← he2]
              unfold slotUpdate
              simp only
              rw [if_neg hcmp]
            refine ⟨he3 ▸ prev1, prev2, ⟨v0, List.mem_append.mpr (Or.inl hv0),
              he3 ▸ hv0id, hv0fav⟩, ?_⟩
            intro v2 hv2 hbv2
            rcases List.mem_append.mp hv2 with hv2 | hv2
            · rw [he3]
              exact prev4 v2 hv2 hbv2
            · rw [List.mem_singleton.mp hv2, he3]
              exact Nat.le_of_not_lt hcmp
  · rw [if_neg hc] at ha
    constructor
    · intro h0 v2 hv2
      rw [ha] at h0
      rcases List.mem_append.mp hv2 with hv2 | hv2
      · exact hnone h0 v2 hv2
      · rw [List.mem_singleton.mp hv2]
        exact hc
    · intro e he
      rw [ha] at he
      obtain ⟨p1, p2, ⟨v0, hv0, hv0id, hv0fav⟩, p4⟩ := hsome e he
      refine ⟨p1, p2, ⟨v0, List.mem_append.mpr (Or.inl hv0), hv0id, hv0fav⟩, ?_⟩
      intro v2 hv2 hbv2
      rcases List.mem_append.mp hv2 with hv2 | hv2
      · exact p4 v2 hv2 hbv2
      · rw [List.mem_singleton.mp hv2] at hbv2
        exact absurd ⟨hbv2, p2⟩ hc

theorem specAt_fold (db : DB) (F : Finset Nat) (b : Nat) (ns : List UserRec) :
    ∀ (seen : List UserRec) (m : List (Nat × RecEntry)),
      SpecAt db F seen m b →
      SpecAt db F (seen ++ ns) (ns.foldl (addNeighborRecs db F) m) b := by
  induction ns with
  | nil =>
      intro seen m h
      simpa using h
  | cons v ns ih =>
      intro seen m h
      rw [List.foldl_cons]
      have h3 := ih (seen ++ [v]) _ (specAt_step db F seen m b v h)
      rwa [List.append_assoc, List.singleton_append] at h3

theorem alook_bookRecommendationsMap_spec (db : DB) (F : Finset Nat)
    (ns : List UserRec) (b : Nat) :
    SpecAt db F ns (bookRecommendationsMap db F ns) b := by
  have h0 : SpecAt db F [] [] b := by
    constructor
    · intro _ v hv
      simp at hv
    · intro e he
      simp [alook] at he
  have h := specAt_fold db F b ns [] [] h0
  simpa using h

theorem keys_nodup_updateBookRec {db : DB} {F : Finset Nat} {u : Nat}
    {m : List (Nat × RecEntry)} {b : Nat}
    (h : (m.map (fun p => p.1)).Nodup) :
    ((updateBookRec db F u m b).map (fun p => p.1)).Nodup := by
  unfold updateBookRec
  by_cases hf : b ∈ F
  · rw [if_pos hf]
    exact h
  · rw [if_neg hf]
    cases ha : alook m b with
    | none =>
        simp only
        rw [List.map_append, List.nodup_append]
        refine ⟨h, by simp, ?_⟩
        intro a hma hsing
        simp only [List.map_cons, List.map_nil, List.mem_singleton] at hsing
        have hab : a = b := hsing
        have hz := (alook_eq_none_iff m b).mp ha
        obtain ⟨p, hp, hpe⟩ := List.mem_map.mp hma
        exact hz p hp (hpe.trans hab)
    | some e =>
        simp only
        by_cases hcmp : e.overlapCount < overlapCountOf db F u
        · rw [if_pos hcmp, aset_keys]
          exact h
        · rw [if_neg hcmp]
          exact h

theorem keys_nodup_map (db : DB) (F : Finset Nat) (ns : List UserRec) :
    ((bookRecommendationsMap db F ns).map (fun p => p.1)).Nodup := by
  unfold bookRecommendationsMap
  apply foldl_preserve (addNeighborRecs db F)
    (fun m => (m.map (fun p => p.1)).Nodup)
  · simp
  · intro m v _ hm
    unfold addNeighborRecs
    apply foldl_preserve (updateBookRec db F v.id)
      (fun m2 => (m2.map (fun p => p.1)).Nodup)
    · exact hm
    · intro m2 b _ hm2
      exact keys_nodup_updateBookRec hm2

theorem countP_values_eq_one (db : DB) (F : Finset Nat) (ns : List UserRec)
    (b : Nat) (e : RecEntry)
    (hsome : alook (bookRecommendationsMap db F ns) b = some e) :
    ((bookRecommendationsMap db F ns).map (fun p => p.2)).countP
      (fun r => decide (r.bookId = b)) = 1 := by
  have hnodup := keys_nodup_map db F ns
  have hkeys : ∀ p ∈ bookRecommendationsMap db F ns, p.2.bookId = p.1 := by
    intro p hp
    obtain ⟨v, hv, b2, he, -, -⟩ := mem_bookRecommendationsMap hp
    rw [he]
    rfl
  rw [List.countP_map]
  have h1 : (bookRecommendationsMap db F ns).countP
      ((fun r => decide (r.bookId = b)) ∘ (fun p => p.2)) =
      (bookRecommendationsMap db F ns).countP (fun p => decide (p.1 = b)) := by
    apply List.countP_congr
    intro p hp
    simp only [Function.comp, decide_eq_true_eq]
    rw [hkeys p hp]
  rw [h1]
  have h2 : (bookRecommendationsMap db F ns).countP (fun p => decide (p.1 = b)) =
      ((bookRecommendationsMap db F ns).map (fun p => p.1)).countP
        (fun k => decide (k = b)) := by
    rw [List.countP_map]
    rfl
  rw [h2]
  have h3 : ((bookRecommendationsMap db F ns).map (fun p => p.1)).countP
      (fun k => decide (k = b)) =
      List.count b ((bookRecommendationsMap db F ns).map (fun p => p.1)) := by
    unfold List.count
    apply List.countP_congr
    intro k _
    simp only [decide_eq_true_eq, beq_iff_eq]
  rw [h3]
  apply List.count_eq_one_of_mem hnodup
  exact List.mem_map.mpr ⟨(b, e), mem_of_alook_eq_some hsome, rfl⟩

theorem addRecToGroups_count (db : DB) (b : Nat)
    (acc : List (Nat × RecommendationGroup)) (r : RecEntry)
    (h : (acc.map (fun q => q.1)).Nodup) :
    (((addRecToGroups db acc r).map (fun q =>
        q.2.recommendedBooks.countP (fun rb => decide (rb.bookId = b)))).sum
      = (acc.map (fun q =>
          q.2.recommendedBooks.countP (fun rb => decide (rb.bookId = b)))).sum
        + (if decide (r.bookId = b) = true then 1 else 0)) ∧
    (((addRecToGroups db acc r).map (fun q => q.1)).Nodup) := by
  unfold addRecToGroups
  cases ha : alook acc r.similarUser with
  | none =>
      simp only
      constructor
      · rw [List.map_append, List.sum_append]
        simp only [List.map_cons, List.map_nil, List.sum_cons, List.sum_nil]
        rw [List.countP_cons]
        simp
      · rw [List.map_append, List.nodup_append]
        refine ⟨h, by simp, ?_⟩
        intro a hma hsing
        simp only [List.map_cons, List.map_nil, List.mem_singleton] at hsing
        have hab : a = r.similarUser := hsing
        have hz := (alook_eq_none_iff acc r.similarUser).mp ha
        obtain ⟨q, hq, hqe⟩ := List.mem_map.mp hma
        exact hz q hq (hqe.trans hab)
  | some g0 =>
      simp only
      obtain ⟨l1, l2, hsplit, h1, h2⟩ := alook_split h ha
      rw [hsplit, aset_of_split l1 l2 r.similarUser g0 _ h1 h2]
      constructor
      · simp only [List.map_append, List.sum_append, List.map_cons, List.sum_cons]
        rw [List.countP_append, List.countP_cons, List.countP_nil]
        generalize (if decide (r.bookId = b) = true then 1 else 0) = k
        generalize (l1.map (fun q => q.2.recommendedBooks.countP
          (fun rb => decide (rb.bookId = b)))).sum = s1
        generalize (l2.map (fun q => q.2.recommendedBooks.countP
          (fun rb => decide (rb.bookId = b)))).sum = s2
        generalize g0.recommendedBooks.countP (fun rb => decide (rb.bookId = b)) = c0
        omega
      · rw [hsplit] at h
        rw [List.map_append, List.map_cons] at h ⊢
        exact h

theorem group_fold_count (db : DB) (b : Nat) (recs : List RecEntry) :
    ∀ (acc : List (Nat × RecommendationGroup)),
      (acc.map (fun q => q.1)).Nodup →
      (((recs.foldl (addRecToGroups db) acc).map (fun q =>
          q.2.recommendedBooks.countP (fun rb => decide (rb.bookId = b)))).sum
        = (acc.map (fun q =>
            q.2.recommendedBooks.countP (fun rb => decide (rb.bookId = b)))).sum
          + recs.countP (fun r => decide (r.bookId = b))) ∧
      (((recs.foldl (addRecToGroups db) acc).map (fun q => q.1)).Nodup) := by
  induction recs with
  | nil =>
      intro acc h
      exact ⟨by simp, h⟩
  | cons r recs ih =>
      intro acc h
      rw [List.foldl_cons]
      obtain ⟨hsc, hsn⟩ := addRecToGroups_count db b acc r h
      obtain ⟨ihc, ihn⟩ := ih (addRecToGroups db acc r) hsn
      refine ⟨?_, ihn⟩
      rw [ihc, hsc, List.countP_cons]
      generalize (if decide (r.bookId = b) = true then 1 else 0) = k
      generalize (acc.map (fun q => q.2.recommendedBooks.countP
        (fun rb => decide (rb.bookId = b)))).sum = s
      generalize recs.countP (fun r2 => decide (r2.bookId = b)) = c
      omega

/-- C4: every entry of recommended_data carries a candidate book not among
the target favorites, attributed to a considered neighbor offering it
whose overlap count is maximal among the considered neighbors offering the
book; and the book occurs exactly once across all groups of the rendered
output. -/
theorem c4_winner_attribution (db : DB) (req : Requester) (r : RecEntry)
    (hr : r ∈ recommendedData db (myFavoriteIds db req)
      (consideredNeighbors db req)) :
    (r.bookId ∉ myFavoriteIds db req ∧
     r.bookId ∈ favSet db r.similarUser ∧
     (∃ v ∈ consideredNeighbors db req, v.id = r.similarUser) ∧
     r.overlapCount = overlapCountOf db (myFavoriteIds db req) r.similarUser ∧
     (∀ v ∈ consideredNeighbors db req, r.bookId ∈ favSet db v.id →
        overlapCountOf db (myFavoriteIds db req) v.id ≤ r.overlapCount)) ∧
    ((recommendationView db req).groupedRecommendations.map
       (fun g => g.recommendedBooks.countP
          (fun rb => decide (rb.bookId = r.bookId)))).sum = 1 := by
  have hr2 := hr
  unfold recommendedData at hr2
  rw [(List.mergeSort_perm _ _).mem_iff] at hr2
  obtain ⟨p, hp, hpe⟩ := List.mem_map.mp hr2
  have hnodup := keys_nodup_map db (myFavoriteIds db req) (consideredNeighbors db req)
  have hpkey : p.1 = r.bookId := by
    obtain ⟨v, hv, b2, he, -, -⟩ := mem_bookRecommendationsMap hp
    have h1 : p.1 = b2 := by
      rw [he]
    have h2 : p.2.bookId = b2 := by
      rw [he]
      rfl
    rw [h1, ← hpe, h2]
  have hpfull : p = (r.bookId, r) := by
    obtain ⟨k, e⟩ := p
    simp only at hpe hpkey
    rw [hpe, hpkey]
  have halook : alook (bookRecommendationsMap db (myFavoriteIds db req)
      (consideredNeighbors db req)) r.bookId = some r :=
    alook_of_mem_of_nodupkeys hnodup (hpfull ▸ hp)
  obtain ⟨-, hsome⟩ := alook_bookRecommendationsMap_spec db (myFavoriteIds db req)
    (consideredNeighbors db req) r.bookId
  obtain ⟨he, hnF, ⟨v, hv, hvid, hbfav⟩, hmax⟩ := hsome r halook
  have hF : ¬(myFavoriteIds db req = ∅) := by
    obtain ⟨b0, hb0F, -⟩ := considered_shares db req v hv
    intro h0
    rw [h0] at hb0F
    exact Finset.not_mem_empty _ hb0F
  constructor
  · refine ⟨hnF, ?_, ⟨v, hv, hvid⟩, ?_, hmax⟩
    · rw [← hvid]
      exact hbfav
    · conv_lhs => rw [he]
      rfl
  · rw [recommendationView_main db req hF]
    simp only
    unfold groupedRecList
    have hmsperm := (List.mergeSort_perm
      (((recommendedData db (myFavoriteIds db req)
          (consideredNeighbors db req)).foldl (addRecToGroups db) []).map
        (fun q => q.2))
      (fun a b => decide (b.overlapCount ≤ a.overlapCount))).map
      (fun g => g.recommendedBooks.countP
        (fun rb => decide (rb.bookId = r.bookId)))
    rw [hmsperm.sum_eq, List.map_map]
    obtain ⟨hcount, -⟩ := group_fold_count db r.bookId
      (recommendedData db (myFavoriteIds db req) (consideredNeighbors db req))
      [] (by simp)
    show (((recommendedData db (myFavoriteIds db req)
        (consideredNeighbors db req)).foldl (addRecToGroups db) []).map
      (fun q => q.2.recommendedBooks.countP
        (fun rb => decide (rb.bookId = r.bookId)))).sum = 1
    rw [hcount]
    simp only [List.map_nil, List.sum_nil, Nat.zero_add]
    have hcp : (recommendedData db (myFavoriteIds db req)
        (consideredNeighbors db req)).countP
          (fun r2 => decide (r2.bookId = r.bookId)) =
        ((bookRecommendationsMap db (myFavoriteIds db req)
          (consideredNeighbors db req)).map (fun p2 => p2.2)).countP
          (fun r2 => decide (r2.bookId = r.bookId)) := by
      unfold recommendedData
      exact (List.mergeSort_perm _ _).countP_eq _
    rw [hcp]
    exact countP_values_eq_one db (myFavoriteIds db req)
      (consideredNeighbors db req) r.bookId r halook

/-- Target 1 loves 10 and 20; neighbor 2 (overlap 1) and neighbor 3
(overlap 2) both love book 30, so 30 is attributed to neighbor 3. -/
def c4db : DB :=
  { users := [⟨1, "x@example.org", true⟩, ⟨2, "y@example.org", true⟩,
              ⟨3, "z@example.org", true⟩]
    books := [⟨10, "Book1"⟩, ⟨20, "Book2"⟩, ⟨30, "Book3"⟩]
    favs := [⟨1, 10, 0, ""⟩, ⟨1, 20, 0, ""⟩,
             ⟨2, 10, 0, ""⟩, ⟨2, 30, 0, "n2"⟩,
             ⟨3, 10, 0, ""⟩, ⟨3, 20, 0, ""⟩, ⟨3, 30, 0, "n3"⟩]
    prefs := [] }

theorem c4_witness :
    (({ bookId := 30, similarUser := 3, overlapCount := 2,
        overlappingTitles := ["Book1", "Book2"] } : RecEntry) ∈
      recommendedData c4db (myFavoriteIds c4db (Requester.auth 1))
        (consideredNeighbors c4db (Requester.auth 1))) ∧
    ((30 : Nat) ∈ favSet c4db 2 ∧
     overlapCountOf c4db (myFavoriteIds c4db (Requester.auth 1)) 2 ≤ 2) ∧
    ((recommendationView c4db (Requester.auth 1)).groupedRecommendations.map
       (fun g => g.recommendedBooks.countP
          (fun rb => decide (rb.bookId = 30)))).sum = 1 := by
  have hmem : ({ bookId := 30, similarUser := 3, overlapCount := 2,
                 overlappingTitles := ["Book1", "Book2"] } : RecEntry) ∈
      recommendedData c4db (myFavoriteIds c4db (Requester.auth 1))
        (consideredNeighbors c4db (Requester.auth 1)) := by
    unfold recommendedData
    have h2 : (bookRecommendationsMap c4db (myFavoriteIds c4db (Requester.auth 1))
        (consideredNeighbors c4db (Requester.auth 1))).map (fun p => p.2) =
        [{ bookId := 30, similarUser := 3, overlapCount := 2,
             overlappingTitles := ["Book1", "Book2"] }] := by decide
    rw [h2, mergeSort_singleton_eq]
    exact List.mem_singleton.mpr rfl
  have h := c4_winner_attribution c4db (Requester.auth 1) _ hmem
  refine ⟨hmem, ⟨by decide, ?_⟩, h.2⟩
  exact h.1.2.2.2.2 ⟨2, "y@example.org", true⟩ (by decide) (by decide)
